import Mathlib

/-!
Verification of the pricing-resolution and cost-aggregation logic of the
Cloud-Architecture-Assistant repository.

The repository's cost estimators traverse untyped JSON dictionaries, so the
embedding models JSON values (`JVal`), Python dictionary access, Python's
numeric coercions (`float`, `int`, truthiness), Python's banker-style
`round`, and the AWS pricing catalog as an abstract function from
(service code, filters) to either an error (network or authentication
failure, which the scripts catch) or a list of price records.

Numbers are modelled as exact rationals; IEEE-754 rounding of individual
float operations is outside the model (the standard idealization), while the
explicit decimal roundings performed by the source (`round(x, 6)`,
`round(x, 2)`, string formatting to 4 decimals) are modelled exactly.
-/

namespace CAA

/-- A JSON value, the shape of the data every estimator script traverses. -/
inductive JVal where
  | null
  | jbool (b : Bool)
  | num (q : ℚ)
  | str (s : String)
  | arr (xs : List JVal)
  | obj (fields : List (String × JVal))
  deriving Repr

mutual

/-- Structural equality test on JSON values (Python `==` on parsed JSON). -/
def jvalBeq : JVal → JVal → Bool
  | .null, .null => true
  | .jbool a, .jbool b => a == b
  | .num a, .num b => a == b
  | .str a, .str b => a == b
  | .arr xs, .arr ys => jlistBeq xs ys
  | .obj xs, .obj ys => jfieldsBeq xs ys
  | _, _ => false

/-- Elementwise equality of JSON arrays. -/
def jlistBeq : List JVal → List JVal → Bool
  | [], [] => true
  | x :: xs, y :: ys => jvalBeq x y && jlistBeq xs ys
  | _, _ => false

/-- Elementwise equality of JSON object field lists. -/
def jfieldsBeq : List (String × JVal) → List (String × JVal) → Bool
  | [], [] => true
  | (k, v) :: xs, (l, w) :: ys => k == l && jvalBeq v w && jfieldsBeq xs ys
  | _, _ => false

end

mutual

theorem jvalBeq_iff : (a b : JVal) → (jvalBeq a b = true ↔ a = b)
  | .null, .null => by simp [jvalBeq]
  | .jbool a, .jbool b => by simp [jvalBeq]
  | .num a, .num b => by simp [jvalBeq]
  | .str a, .str b => by simp [jvalBeq]
  | .arr xs, .arr ys => by
      rw [show jvalBeq (.arr xs) (.arr ys) = jlistBeq xs ys from rfl]
      rw [jlistBeq_iff xs ys]
      simp
  | .obj xs, .obj ys => by
      rw [show jvalBeq (.obj xs) (.obj ys) = jfieldsBeq xs ys from rfl]
      rw [jfieldsBeq_iff xs ys]
      simp
  | .null, .jbool _ => by simp [jvalBeq]
  | .null, .num _ => by simp [jvalBeq]
  | .null, .str _ => by simp [jvalBeq]
  | .null, .arr _ => by simp [jvalBeq]
  | .null, .obj _ => by simp [jvalBeq]
  | .jbool _, .null => by simp [jvalBeq]
  | .jbool _, .num _ => by simp [jvalBeq]
  | .jbool _, .str _ => by simp [jvalBeq]
  | .jbool _, .arr _ => by simp [jvalBeq]
  | .jbool _, .obj _ => by simp [jvalBeq]
  | .num _, .null => by simp [jvalBeq]
  | .num _, .jbool _ => by simp [jvalBeq]
  | .num _, .str _ => by simp [jvalBeq]
  | .num _, .arr _ => by simp [jvalBeq]
  | .num _, .obj _ => by simp [jvalBeq]
  | .str _, .null => by simp [jvalBeq]
  | .str _, .jbool _ => by simp [jvalBeq]
  | .str _, .num _ => by simp [jvalBeq]
  | .str _, .arr _ => by simp [jvalBeq]
  | .str _, .obj _ => by simp [jvalBeq]
  | .arr _, .null => by simp [jvalBeq]
  | .arr _, .jbool _ => by simp [jvalBeq]
  | .arr _, .num _ => by simp [jvalBeq]
  | .arr _, .str _ => by simp [jvalBeq]
  | .arr _, .obj _ => by simp [jvalBeq]
  | .obj _, .null => by simp [jvalBeq]
  | .obj _, .jbool _ => by simp [jvalBeq]
  | .obj _, .num _ => by simp [jvalBeq]
  | .obj _, .str _ => by simp [jvalBeq]
  | .obj _, .arr _ => by simp [jvalBeq]

theorem jlistBeq_iff : (xs ys : List JVal) → (jlistBeq xs ys = true ↔ xs = ys)
  | [], [] => by simp [jlistBeq]
  | x :: xs, y :: ys => by
      rw [show jlistBeq (x :: xs) (y :: ys) = (jvalBeq x y && jlistBeq xs ys) from rfl]
      rw [Bool.and_eq_true, jvalBeq_iff x y, jlistBeq_iff xs ys]
      simp
  | [], _ :: _ => by simp [jlistBeq]
  | _ :: _, [] => by simp [jlistBeq]

theorem jfieldsBeq_iff :
    (xs ys : List (String × JVal)) → (jfieldsBeq xs ys = true ↔ xs = ys)
  | [], [] => by simp [jfieldsBeq]
  | (k, v) :: xs, (l, w) :: ys => by
      rw [show jfieldsBeq ((k, v) :: xs) ((l, w) :: ys)
            = (k == l && jvalBeq v w && jfieldsBeq xs ys) from rfl]
      rw [Bool.and_eq_true, Bool.and_eq_true, jvalBeq_iff v w, jfieldsBeq_iff xs ys]
      simp [Prod.ext_iff, and_assoc]
  | [], _ :: _ => by simp [jfieldsBeq]
  | _ :: _, [] => by simp [jfieldsBeq]

end

instance : DecidableEq JVal := fun a b => decidable_of_iff _ (jvalBeq_iff a b)

/-- An object's fields: a Python dict with string keys, in insertion order. -/
abbrev JObj := List (String × JVal)

/-- Python `d[k]` / `k in d`: the value at the first matching key. -/
def jlookup : JObj → String → Option JVal
  | [], _ => none
  | (k, v) :: rest, key => if k = key then some v else jlookup rest key

/-- Python `d.get(k, default)`. -/
def jgetD (fields : JObj) (key : String) (dflt : JVal) : JVal :=
  (jlookup fields key).getD dflt

/-- Python `d[k] = v`: overwrite in place when the key exists (keeping its
position, as dicts do), else append. -/
def setKey : JObj → String → JVal → JObj
  | [], key, v => [(key, v)]
  | (k, w) :: rest, key, v =>
      if k = key then (k, v) :: rest else (k, w) :: setKey rest key v

/-- Python truthiness of a JSON value. -/
def pyTruthy : JVal → Bool
  | .null => false
  | .jbool b => b
  | .num q => decide (q ≠ 0)
  | .str s => decide (s ≠ "")
  | .arr xs => !xs.isEmpty
  | .obj fs => !fs.isEmpty

/-- Python `s.lower()` (per-character, like the ASCII data the scripts
compare). -/
def strLower (s : String) : String := String.mk (s.toList.map Char.toLower)

/-- Python `s.upper()`. -/
def strUpper (s : String) : String := String.mk (s.toList.map Char.toUpper)

/-- Python `s.strip()`: whitespace removed from both ends. -/
def strTrim (s : String) : String :=
  String.mk (((s.toList.dropWhile Char.isWhitespace).reverse.dropWhile
    Char.isWhitespace).reverse)

/-- The natural number denoted by a list of decimal digits. -/
def natOfDigits (cs : List Char) : ℕ :=
  cs.foldl (fun n c => 10 * n + (c.toNat - 48)) 0

/-- An unsigned decimal literal, digits with at most one dot, as Python
`float` reads one ("100", "12.5", "5.", ".5"); no exponent forms (none of
the inputs the scripts handle carry one). -/
def parseUnsignedDecimal (cs : List Char) : Option ℚ :=
  if cs.contains '.' then
    let a := cs.takeWhile (· ≠ '.')
    let b := (cs.dropWhile (· ≠ '.')).drop 1
    if b.contains '.' then none
    else if a.isEmpty && b.isEmpty then none
    else if a.all Char.isDigit && b.all Char.isDigit then
      some ((natOfDigits a : ℚ) + (natOfDigits b : ℚ) / (10 ^ b.length))
    else none
  else if !cs.isEmpty && cs.all Char.isDigit then some (natOfDigits cs) else none

/-- Python `float(s)` for a string: optional sign, decimal literal,
surrounding whitespace stripped. -/
def pyFloatOfString (s : String) : Option ℚ :=
  match (strTrim s).toList with
  | '+' :: rest => parseUnsignedDecimal rest
  | '-' :: rest => (parseUnsignedDecimal rest).map (fun q => -q)
  | cs => parseUnsignedDecimal cs

/-- Python `int(s)` for a string: optional sign and digits only
(`int("2.5")` raises). -/
def pyIntOfString (s : String) : Option ℤ :=
  let core : List Char → Option ℤ := fun cs =>
    if !cs.isEmpty && cs.all Char.isDigit then some (natOfDigits cs : ℤ) else none
  match (strTrim s).toList with
  | '+' :: rest => core rest
  | '-' :: rest => (core rest).map (fun n => -n)
  | cs => core cs

/-- Truncation toward zero, Python `int()` on a float. -/
def pyTrunc (q : ℚ) : ℤ := if 0 ≤ q then ⌊q⌋ else ⌈q⌉

/-- Python `float(v)`: numbers pass through, bools count as 0/1 (a Python
bool is an int), numeric strings are parsed, everything else raises. -/
def pyFloat : JVal → Except String ℚ
  | .num q => .ok q
  | .jbool b => .ok (if b then 1 else 0)
  | .str s =>
      match pyFloatOfString s with
      | some q => .ok q
      | none => .error "ValueError: could not convert string to float"
  | _ => .error "TypeError: float() argument must be a string or a number"

/-- Python `int(v)`: floats truncate toward zero, bools count as 0/1,
integer strings are parsed, everything else raises. -/
def pyInt : JVal → Except String ℤ
  | .num q => .ok (pyTrunc q)
  | .jbool b => .ok (if b then 1 else 0)
  | .str s =>
      match pyIntOfString s with
      | some n => .ok n
      | none => .error "ValueError: invalid literal for int"
  | _ => .error "TypeError: int() argument must be a string or a number"

/-- Python `v.lower()`: defined on strings only. -/
def pyLower : JVal → Except String String
  | .str s => .ok (strLower s)
  | _ => .error "AttributeError: object has no attribute lower"

/-- Python `q * v` for a float `q` and an arbitrary value `v`: numbers and
bools multiply, everything else raises TypeError. -/
def pyTimes (q : ℚ) : JVal → Except String ℚ
  | .num x => .ok (q * x)
  | .jbool b => .ok (q * if b then 1 else 0)
  | _ => .error "TypeError: unsupported operand type for mul"

/-- How an f-string renders a value. Strings render as themselves (the only
case the claims depend on); other shapes are abstracted, the rendering being
purely presentational in the source (debug text and display labels). -/
def jshow : JVal → String
  | .str s => s
  | .null => "None"
  | .jbool b => if b then "True" else "False"
  | .num _ => "<number>"
  | .arr _ => "<list>"
  | .obj _ => "<dict>"

/-- Round to the nearest integer, ties to the even neighbour: the rounding
of Python's builtin `round`. -/
def roundHalfEven (q : ℚ) : ℤ :=
  let n := ⌊q⌋
  let f := q - n
  if f < 1 / 2 then n
  else if 1 / 2 < f then n + 1
  else if Even n then n else n + 1

/-- Python `round(q, nd)` for `nd ≥ 0`, on exact rationals. -/
def pyRound (nd : ℕ) (q : ℚ) : ℚ :=
  (roundHalfEven (q * 10 ^ nd) : ℚ) / 10 ^ nd

theorem abs_roundHalfEven_sub (q : ℚ) : |(roundHalfEven q : ℚ) - q| ≤ 1 / 2 := by
  have hfl : (⌊q⌋ : ℚ) ≤ q := Int.floor_le q
  have hfu : q < ⌊q⌋ + 1 := Int.lt_floor_add_one q
  unfold roundHalfEven
  by_cases h1 : q - (⌊q⌋ : ℚ) < 1 / 2
  · simp only [if_pos h1]
    rw [abs_le]
    constructor <;> linarith
  · simp only [if_neg h1]
    by_cases h2 : (1 : ℚ) / 2 < q - (⌊q⌋ : ℚ)
    · simp only [if_pos h2]
      rw [abs_le]
      push_cast
      constructor <;> linarith
    · simp only [if_neg h2]
      have heq : q - (⌊q⌋ : ℚ) = 1 / 2 := le_antisymm (not_lt.mp h2) (not_lt.mp h1)
      by_cases h3 : Even ⌊q⌋
      · simp only [if_pos h3]
        rw [abs_le]
        constructor <;> linarith
      · simp only [if_neg h3]
        rw [abs_le]
        push_cast
        constructor <;> linarith

theorem abs_pyRound_sub (nd : ℕ) (q : ℚ) :
    |pyRound nd q - q| ≤ 1 / 2 / 10 ^ nd := by
  have hpow : (0 : ℚ) < 10 ^ nd := by positivity
  have h := abs_roundHalfEven_sub (q * 10 ^ nd)
  unfold pyRound
  have hrw : (roundHalfEven (q * 10 ^ nd) : ℚ) / 10 ^ nd - q
      = ((roundHalfEven (q * 10 ^ nd) : ℚ) - q * 10 ^ nd) / 10 ^ nd := by
    field_simp
    ring
  rw [hrw, abs_div, abs_of_pos hpow]
  gcongr

/-- The total rounding error of rounding each list element:
`|sum (map (pyRound nd) l) - sum l| ≤ length l * (1/2 / 10 ^ nd)`. -/
theorem abs_sum_pyRound_sub (nd : ℕ) :
    ∀ l : List ℚ, |(l.map (pyRound nd)).sum - l.sum| ≤ l.length * (1 / 2 / 10 ^ nd)
  | [] => by simp
  | q :: l => by
      have h1 := abs_pyRound_sub nd q
      have h2 := abs_sum_pyRound_sub nd l
      have htri : |(pyRound nd q + ((l.map (pyRound nd)).sum)) - (q + l.sum)|
          ≤ |pyRound nd q - q| + |(l.map (pyRound nd)).sum - l.sum| := by
        have : (pyRound nd q + ((l.map (pyRound nd)).sum)) - (q + l.sum)
            = (pyRound nd q - q) + ((l.map (pyRound nd)).sum - l.sum) := by ring
        rw [this]
        exact abs_add _ _
      simp only [List.map_cons, List.sum_cons, List.length_cons]
      push_cast
      calc |(pyRound nd q + ((l.map (pyRound nd)).sum)) - (q + l.sum)|
          ≤ |pyRound nd q - q| + |(l.map (pyRound nd)).sum - l.sum| := htri
        _ ≤ 1 / 2 / 10 ^ nd + l.length * (1 / 2 / 10 ^ nd) := by
            exact add_le_add h1 h2
        _ = (l.length + 1) * (1 / 2 / 10 ^ nd) := by ring

/-! ### Python substring containment (`needle in haystack`) -/

/-- Boolean list prefix test. -/
def isPrefixList : List Char → List Char → Bool
  | [], _ => true
  | _ :: _, [] => false
  | a :: as, b :: bs => a == b && isPrefixList as bs

/-- Boolean contiguous-sublist test. -/
def containsSub (needle : List Char) : List Char → Bool
  | [] => needle.isEmpty
  | c :: t => isPrefixList needle (c :: t) || containsSub needle t

/-- Python `needle in haystack` on strings. -/
def strIn (needle haystack : String) : Bool :=
  containsSub needle.toList haystack.toList

/-- Python `s.endswith(suffix)`. -/
def strEndsWith (s suffix : String) : Bool :=
  isPrefixList suffix.toList.reverse s.toList.reverse

theorem isPrefixList_self_append :
    ∀ (n rest : List Char), isPrefixList n (n ++ rest) = true
  | [], _ => rfl
  | a :: as, rest => by
      simp only [List.cons_append, isPrefixList, beq_self_eq_true, Bool.true_and]
      exact isPrefixList_self_append as rest

theorem containsSub_of_isPrefixList {n h : List Char}
    (hp : isPrefixList n h = true) : containsSub n h = true := by
  cases h with
  | nil => cases n with
    | nil => rfl
    | cons a as => simp [isPrefixList] at hp
  | cons c t => simp [containsSub, hp]

theorem containsSub_cons_of_containsSub {n : List Char} (c : Char) {t : List Char}
    (h : containsSub n t = true) : containsSub n (c :: t) = true := by
  simp [containsSub, h]

theorem containsSub_pre_append :
    ∀ (pre n rest : List Char), containsSub n (pre ++ (n ++ rest)) = true
  | [], n, rest => containsSub_of_isPrefixList (isPrefixList_self_append n rest)
  | c :: pre, n, rest => by
      rw [List.cons_append]
      exact containsSub_cons_of_containsSub c (containsSub_pre_append pre n rest)

/-- Appending text to a string keeps a substring found in its left part. -/
theorem strIn_append_right {needle pre : String} (s : String)
    (h : ∃ a b, pre.toList = a ++ (needle.toList ++ b)) :
    strIn needle (pre ++ s) = true := by
  obtain ⟨a, b, hab⟩ := h
  unfold strIn
  have : (pre ++ s).toList = a ++ (needle.toList ++ (b ++ s.toList)) := by
    simp [String.toList, String.data_append] at hab ⊢
    simp [hab]
  rw [this]
  exact containsSub_pre_append a needle.toList (b ++ s.toList)

/-! ### Fixed-point dollar formatting (Python `f"${x:.df}"`) -/

/-- Zero-pad a digit string on the left to `d` characters. -/
def padZeros (d : ℕ) (s : String) : String :=
  if s.length < d then String.mk (List.replicate (d - s.length) '0') ++ s else s

/-- Python `f"{q:.df}"`: fixed-point rendering with `d` decimals, ties to
even. (The sign of an IEEE negative zero is not representable in `ℚ` and is
not modelled.) -/
def formatFixed (d : ℕ) (q : ℚ) : String :=
  let n := roundHalfEven (q * 10 ^ d)
  let sign := if n < 0 then "-" else ""
  let m := n.natAbs
  let ip := m / 10 ^ d
  let fp := m % 10 ^ d
  sign ++ toString ip ++ (if d = 0 then "" else "." ++ padZeros d (toString fp))

/-- Python `f"${q:.df}"`, the dollar-cost strings the estimators emit. -/
def formatUSD (d : ℕ) (q : ℚ) : String := "$" ++ formatFixed d q

/-! ### The pricing catalog boundary

`get_products` of the AWS Pricing API: a service code and a list of
`TERM_MATCH` filters (field, value) yield either a transport/authentication
error — every script catches it — or the matching price records. A record
carries its product attributes and its OnDemand terms, each term an ordered
list of price dimensions. A fixed `Catalog` value is one catalog snapshot,
so identical queries are deterministic; the scripts' per-run memo caches are
therefore observationally transparent and are not modelled. -/

/-- One price dimension of an OnDemand term. -/
structure PriceDim where
  unit : String
  description : String
  usd : ℚ
  deriving Repr, DecidableEq

/-- One price record returned by the catalog. -/
structure PriceRecord where
  attributes : List (String × String)
  terms : List (List PriceDim)
  deriving Repr, DecidableEq

/-- A `TERM_MATCH` filter: field name and required value. -/
abbrev Filter := String × JVal

/-- A catalog snapshot: service code and filters to records or an error. -/
abbrev Catalog := String → List Filter → Except String (List PriceRecord)

/-- Lookup in a string-keyed attribute list with a default
(Python `attrs.get(k, default)`). -/
def strLookup : List (String × String) → String → String → String
  | [], _, dflt => dflt
  | (k, v) :: rest, key, dflt => if k = key then v else strLookup rest key dflt

/-- Python `d[k] = v` for a dict keyed by arbitrary JSON values (the scripts
key cost breakdowns by node labels): overwrite in place, else append. -/
def setKeyJ {α : Type} : List (JVal × α) → JVal → α → List (JVal × α)
  | [], key, v => [(key, v)]
  | (k, w) :: rest, key, v =>
      if k = key then (k, v) :: rest else (k, w) :: setKeyJ rest key v

/-! ## `cost_estimator.py`

The boto3-based estimator: region table, size/memory parsing, the
first-dimension price lookup `get_product_price`, the four per-service
handlers, and the aggregation loop `estimate_cost_from_json`. Console
`print` calls are pure logging and are not modelled; AWS client construction
is replaced by the `Catalog` parameter. -/

namespace CE

/-- `REGION_MAP`: region code to Pricing API location display name. -/
def REGION_MAP : List (String × String) :=
  [ ("us-east-1", "US East (N. Virginia)"),
    ("us-east-2", "US East (Ohio)"),
    ("us-west-1", "US West (N. California)"),
    ("us-west-2", "US West (Oregon)"),
    ("ap-south-1", "Asia Pacific (Mumbai)"),
    ("ap-northeast-1", "Asia Pacific (Tokyo)"),
    ("ap-northeast-2", "Asia Pacific (Seoul)"),
    ("ap-southeast-1", "Asia Pacific (Singapore)"),
    ("ap-southeast-2", "Asia Pacific (Sydney)"),
    ("ca-central-1", "Canada (Central)"),
    ("eu-central-1", "EU (Frankfurt)"),
    ("eu-west-1", "EU (Ireland)"),
    ("eu-west-2", "EU (London)"),
    ("eu-west-3", "EU (Paris)"),
    ("sa-east-1", "South America (Sao Paulo)") ]

/-- Lookup in an association list of strings (Python `dict.get`). -/
def lookupStr : List (String × String) → String → Option String
  | [], _ => none
  | (k, v) :: rest, key => if k = key then some v else lookupStr rest key

/-- `DEFAULT_AWS_REGION`: the script reads `AWS_REGION` from the environment
with fallback `"ap-south-1"`; the model uses the fallback. -/
def DEFAULT_AWS_REGION : String := "ap-south-1"

/-- `GB_TO_MB = 1024`. -/
def GB_TO_MB : ℚ := 1024

/-- `HOURS_PER_MONTH = 730`. -/
def HOURS_PER_MONTH : ℚ := 730

/-- `re.findall(r"\d+\.?\d*", s)`, first match: the first maximal digit run,
optionally followed by one dot and further digits. -/
def firstNumericToken : List Char → Option (List Char)
  | [] => none
  | c :: rest =>
      if c.isDigit then
        let ds := (c :: rest).takeWhile Char.isDigit
        let after := (c :: rest).drop ds.length
        match after with
        | '.' :: more => some (ds ++ '.' :: more.takeWhile Char.isDigit)
        | _ => some ds
      else firstNumericToken rest

/-- `parse_storage_size`: numbers pass through (assumed GB); strings are
uppercased and stripped, the first numeric token is read, and a `TB`/`MB`
suffix anywhere in the string scales it (else GB); no numeric token — or a
non-string, non-numeric input — yields `none` (Python `None`). -/
def parse_storage_size : JVal → Option ℚ
  | .num q => some q
  | .jbool b => some (if b then 1 else 0)
  | .str s =>
      let u := (strTrim (strUpper s)).toList
      match firstNumericToken u with
      | none => none
      | some tok =>
          match parseUnsignedDecimal tok with
          | none => none
          | some num =>
              if containsSub "TB".toList u then some (num * GB_TO_MB)
              else if containsSub "MB".toList u then some (num / GB_TO_MB)
              else some num
  | _ => none

/-- `parse_memory_size`: numbers pass through (MB); strings are uppercased,
an `MB`/`GB` suffix is stripped (`GB` scales by 1024) and the rest must be a
float literal; anything else raises. -/
def parse_memory_size : JVal → Except String ℚ
  | .num q => .ok q
  | .jbool b => .ok (if b then 1 else 0)
  | .str s =>
      let u := strUpper s
      if strEndsWith u "MB" then
        match pyFloatOfString (u.dropRight 2) with
        | some q => .ok q
        | none => .error "ValueError: could not convert string to float"
      else if strEndsWith u "GB" then
        match pyFloatOfString (u.dropRight 2) with
        | some q => .ok (q * 1024)
        | none => .error "ValueError: could not convert string to float"
      else
        match pyFloatOfString u with
        | some q => .ok q
        | none => .error "ValueError: could not convert string to float"
  | _ => .error "ValueError: could not convert to float"

/-- `get_location_from_region`: the static table, or the sentinel string
`"Region not mapped: <code>"` for a code outside it. -/
def get_location_from_region (region : JVal) : String :=
  match region with
  | .str s =>
      match lookupStr REGION_MAP s with
      | some l => l
      | none => "Region not mapped: " ++ s
  | other => "Region not mapped: " ++ jshow other

/-- First dimension of the first non-empty OnDemand term of a record. -/
def scanTermsFirstDim : List (List PriceDim) → Option ℚ
  | [] => none
  | [] :: ts => scanTermsFirstDim ts
  | (d :: _) :: _ => some d.usd

/-- The scan of `get_product_price` over the OnDemand terms of the records:
`for price_item: for term: for dimension: return price` — the first
dimension encountered in record order, whatever its unit or description. -/
def scanFirstDim : List PriceRecord → Option ℚ
  | [] => none
  | r :: rs =>
      match scanTermsFirstDim r.terms with
      | some p => some p
      | none => scanFirstDim rs

/-- `get_product_price`: queries the catalog and returns the USD price of
the first OnDemand price dimension found; `0` when the price list is empty,
when no record holds a dimension, or when any exception occurs. -/
def get_product_price (cat : Catalog) (service_code : String)
    (filters : List Filter) : ℚ :=
  match cat service_code filters with
  | .error _ => 0
  | .ok [] => 0
  | .ok rs => (scanFirstDim rs).getD 0

/-- `estimate_ec2_cost`: returns the MONTHLY cost
`hourly_rate × 730 × quantity`; `0` when `InstanceType` is falsy or the
region is unmapped or no price is found. Raises only if `quantity` is not a
number (absorbed per-node by the caller). -/
def estimate_ec2_cost (cat : Catalog) (node : JObj) : Except String ℚ := do
  let instance_type := jgetD node "InstanceType" .null
  let region := jgetD node "region" (.str DEFAULT_AWS_REGION)
  let os_type := jgetD node "os" (.str "Linux")
  let tenancy := jgetD node "tenancy" (.str "Shared")
  let quantity := jgetD node "quantity" (.num 1)
  if !pyTruthy instance_type then return 0
  let location := get_location_from_region region
  if strIn "not mapped" location then return 0
  let filters : List Filter :=
    [ ("location", .str location), ("instanceType", instance_type),
      ("operatingSystem", os_type), ("tenancy", tenancy),
      ("preInstalledSw", .str "NA"), ("termType", .str "OnDemand") ]
  let price_data := get_product_price cat "AmazonEC2" filters
  if price_data = 0 then return 0
  pyTimes (price_data * HOURS_PER_MONTH) quantity

/-- `estimate_s3_cost`: storage price × size plus request price × requests
/ 1000, in dollars per month. -/
def estimate_s3_cost (cat : Catalog) (node : JObj) : Except String ℚ := do
  let region := jgetD node "region" (.str "ap-south-1")
  let storage_class := jgetD node "storageClass" (.str "Standard")
  let storage_size ← pyFloat (jgetD node "storageSize" (.num 150))
  let monthly_requests ← pyInt (jgetD node "monthlyRequests" (.num 10000))
  let location : JVal :=
    if region = .str "ap-south-1" then .str "Asia Pacific (Mumbai)" else region
  let storage_filters : List Filter :=
    [ ("location", location), ("termType", .str "OnDemand"),
      ("volumeType", storage_class) ]
  let storage_price := get_product_price cat "AmazonS3" storage_filters
  let storage_cost := if storage_price ≠ 0 then storage_price * storage_size else 0
  let request_filters : List Filter :=
    [ ("location", location), ("termType", .str "OnDemand"),
      ("group", .str "S3-API-Tier1") ]
  let request_price := get_product_price cat "AmazonS3" request_filters
  let request_cost :=
    if request_price ≠ 0 then request_price * monthly_requests / 1000 else 0
  return storage_cost + request_cost

/-- The body of `estimate_lambda_cost` before its `except` clause. -/
def estimate_lambda_cost_body (cat : Catalog) (node : JObj) :
    Except String ℚ := do
  let memory ← parse_memory_size (jgetD node "Memory" (.num 128))
  let region := jgetD node "Region" (.str "ap-south-1")
  let monthly_requests ← pyInt (jgetD node "MonthlyRequests" (.num 1000000))
  let avgRaw ← pyFloat (jgetD node "AverageDuration" (.num 100))
  let avg_duration := avgRaw / 1000
  let location : JVal :=
    if region = .str "ap-south-1" then .str "Asia Pacific (Mumbai)" else region
  let gb_seconds := (memory / 1024) * (avg_duration * monthly_requests)
  let request_filters : List Filter :=
    [ ("location", location), ("termType", .str "OnDemand"),
      ("productFamily", .str "Serverless"),
      ("group", .str "AWS-Lambda-Requests") ]
  let request_price := get_product_price cat "AWSLambda" request_filters
  let duration_filters : List Filter :=
    [ ("location", location), ("termType", .str "OnDemand"),
      ("productFamily", .str "Serverless"),
      ("group", .str "AWS-Lambda-Duration") ]
  let duration_price := get_product_price cat "AWSLambda" duration_filters
  let request_cost :=
    if request_price ≠ 0 then (monthly_requests / 1000000 : ℚ) * request_price else 0
  let duration_cost := if duration_price ≠ 0 then gb_seconds * duration_price else 0
  return request_cost + duration_cost

/-- `estimate_lambda_cost`: the whole body sits in `try`, so every error
collapses to a zero monthly cost. -/
def estimate_lambda_cost (cat : Catalog) (node : JObj) : ℚ :=
  match estimate_lambda_cost_body cat node with
  | .ok q => q
  | .error _ => 0

/-- `estimate_rds_cost`: instance price × 730 × quantity plus storage price
× parsed size × quantity, per month. An unparsable `storage_size` makes the
Python multiply `None` (TypeError, absorbed per-node by the caller); the
region is NOT checked against the map here, an unmapped code simply reaches
the catalog inside the location filter. -/
def estimate_rds_cost (cat : Catalog) (node : JObj) : Except String ℚ := do
  let instance_type := jgetD node "InstanceType" (.str "db.t3.small")
  let region := jgetD node "region" (.str DEFAULT_AWS_REGION)
  let engine := jgetD node "engine" (.str "MySQL")
  let deployment := jgetD node "deployment" (.str "Single-AZ")
  let storage_size := parse_storage_size (jgetD node "storage_size" (.str "50"))
  let storage_type := jgetD node "storage_type" (.str "General Purpose")
  let quantity := jgetD node "quantity" (.num 1)
  let location := get_location_from_region region
  let instance_filters : List Filter :=
    [ ("location", .str location), ("instanceType", instance_type),
      ("databaseEngine", engine), ("deploymentOption", deployment),
      ("termType", .str "OnDemand") ]
  let hourly_price := get_product_price cat "AmazonRDS" instance_filters
  let storage_filters : List Filter :=
    [ ("location", .str location), ("volumeType", storage_type),
      ("databaseEngine", engine), ("termType", .str "OnDemand"),
      ("group", .str "RDS-Storage-Usage") ]
  let storage_price := get_product_price cat "AmazonRDS" storage_filters
  let instance_monthly ← pyTimes (hourly_price * HOURS_PER_MONTH) quantity
  let storage_monthly ←
    match storage_size with
    | some sz => pyTimes (storage_price * sz) quantity
    | none => .error "TypeError: unsupported operand type for mul with NoneType"
  return instance_monthly + storage_monthly

/-- `COMPONENT_HANDLERS`: the resolver registry keyed by node type. -/
def handlerFor : JVal → Option (Catalog → JObj → Except String ℚ)
  | .str "AmazonEC2" => some estimate_ec2_cost
  | .str "AmazonS3" => some estimate_s3_cost
  | .str "AWSLambda" => some (fun cat node => .ok (estimate_lambda_cost cat node))
  | .str "AmazonRDS" => some estimate_rds_cost
  | _ => none

/-- The node loop of `estimate_cost_from_json`: nodes without a truthy type
or without a registered handler are skipped; a handler exception is caught
per node; only strictly positive costs enter the breakdown and the total. -/
def goNodes (cat : Catalog) :
    List JVal → ℕ → ℚ × List (JVal × ℚ) → Except String (ℚ × List (JVal × ℚ))
  | [], _, acc => .ok acc
  | n :: ns, i, (total, breakdown) =>
      match n with
      | .obj node =>
          let ctype := jgetD node "type" .null
          let name := jgetD node "label" (jgetD node "id"
            (.str ("Node " ++ toString (i + 1) ++ " (" ++ jshow ctype ++ ")")))
          if !pyTruthy ctype then goNodes cat ns (i + 1) (total, breakdown)
          else
            match handlerFor ctype with
            | some handler =>
                match handler cat node with
                | .ok c =>
                    if 0 < c then
                      goNodes cat ns (i + 1) (total + c, setKeyJ breakdown name c)
                    else goNodes cat ns (i + 1) (total, breakdown)
                | .error _ => goNodes cat ns (i + 1) (total, breakdown)
            | none => goNodes cat ns (i + 1) (total, breakdown)
      | _ => .error "AttributeError: node has no attribute get"

/-- `estimate_cost_from_json` (file loading elided: the parsed document is
passed in). A document without a top-level `nodes` list yields `(0, {})`
— an empty report, not an exception. The returned pair is the whole
report: total monthly cost and the name-to-cost breakdown dict; the
function has no warnings output. -/
def estimate_cost_from_json (cat : Catalog) (arch : JVal) :
    Except String (ℚ × List (JVal × ℚ)) :=
  match arch with
  | .obj fs =>
      match jlookup fs "nodes" with
      | some (.arr ns) => goNodes cat ns 0 (0, [])
      | _ => .ok (0, [])
  | _ => .error "TypeError: unsupported document shape"

end CE

/-! ## `safe_float` of `cost_estimator_2.py`

The generic "convert almost-anything to float" helper defined inside
`process_architecture`: the one parser of the repository that takes a
caller-supplied default. -/

namespace CE2

/-- `re.match(r"^(\d+\.?\d*|\.\d+)", s)`: a leading digit run with optional
dot and digits, or a leading dot with at least one digit. -/
def matchLeadingNumber : List Char → Option (List Char)
  | [] => none
  | '.' :: rest =>
      let ds := rest.takeWhile Char.isDigit
      if ds.isEmpty then none else some ('.' :: ds)
  | c :: rest =>
      if c.isDigit then
        let ds := (c :: rest).takeWhile Char.isDigit
        let after := (c :: rest).drop ds.length
        match after with
        | '.' :: more => some (ds ++ '.' :: more.takeWhile Char.isDigit)
        | _ => some ds
      else none

/-- `safe_float(value, default)`: `None` and non-string non-numbers give the
default; numbers (and bools) pass through; strings are stripped and
lowercased, a leading numeric token is read (else the default), and a
`tb`/`terabyte`, `million` or `billion` magnitude word anywhere in the
string scales it. Note `mb`/`gb` are NOT handled here. Never raises. -/
def safe_float (value : JVal) (dflt : ℚ) : ℚ :=
  match value with
  | .null => dflt
  | .num q => q
  | .jbool b => if b then 1 else 0
  | .str s =>
      if strTrim s = "" then dflt
      else
        let v := strLower (strTrim s)
        match matchLeadingNumber v.toList with
        | none => dflt
        | some tok =>
            match parseUnsignedDecimal tok with
            | none => dflt
            | some number =>
                if containsSub "tb".toList v.toList
                    || containsSub "terabyte".toList v.toList then number * 1024
                else if containsSub "million".toList v.toList then number * 1000000
                else if containsSub "billion".toList v.toList then
                  number * 1000000000
                else number
  | _ => dflt

end CE2

/-! ## `cost_2.py`

The compact cost engine: `get_price` (MaxResults=1, so only the first
returned record is decoded), the per-service filter builders, the RDS
composite estimator, and `estimate_cost_from_architecture`, whose report
carries a 6-decimal total, a 2-decimal monthly figure and per-node
6-decimal breakdown entries. -/

namespace Cost2

/-- One entry of `service_breakdown`. -/
structure Entry2 where
  nodeId : JVal
  service : String
  description : String
  hourly_price_usd : ℚ
  deriving Repr, DecidableEq

/-- The report of `estimate_cost_from_architecture`. -/
structure Report2 where
  total_hourly_cost_usd : ℚ
  estimated_monthly_cost_usd : ℚ
  service_breakdown : List Entry2
  deriving Repr, DecidableEq

/-- `get_price`: decodes only `PriceList[0]`, returns the USD price of the
first OnDemand price dimension of that record; `0.0` on an empty price
list, a record without dimensions, or any exception. -/
def get_price (cat : Catalog) (filters : List Filter)
    (service_code : String) : ℚ :=
  match cat service_code filters with
  | .error _ => 0
  | .ok [] => 0
  | .ok (r :: _) => (CE.scanTermsFirstDim r.terms).getD 0

/-- `build_ec2_filters`. -/
def build_ec2_filters (attr : JObj) (region : JVal) : List Filter :=
  [ ("instanceType", jgetD attr "instanceType" (.str "t3.micro")),
    ("operatingSystem", jgetD attr "operatingSystem" (.str "Linux")),
    ("tenancy", jgetD attr "tenancy" (.str "Shared")),
    ("capacitystatus", jgetD attr "capacitystatus" (.str "Used")),
    ("preInstalledSw", jgetD attr "preInstalledSw" (.str "NA")),
    ("termType", jgetD attr "termType" (.str "OnDemand")),
    ("location", region) ]

/-- `build_s3_filters`. -/
def build_s3_filters (_attr : JObj) (region : JVal) : List Filter :=
  [ ("location", region), ("productFamily", .str "Storage"),
    ("termType", .str "OnDemand") ]

/-- `build_cloudfront_filters`. -/
def build_cloudfront_filters (_attr : JObj) : List Filter :=
  [ ("location", .str "Global"), ("termType", .str "OnDemand"),
    ("productFamily", .str "Amazon CloudFront") ]

/-- The `volume_map` of `estimate_rds_cost`. -/
def volume_map : List (String × String) :=
  [ ("gp2", "General Purpose"), ("gp3", "General Purpose"),
    ("io1", "Provisioned IOPS"), ("standard", "Magnetic") ]

/-- `estimate_rds_cost` of `cost_2.py`: instance hourly price plus storage
price scaled `(price_per_gb_month / 730) * storage_gb`; returns the pair
(hourly rounded to 6 decimals, monthly rounded to 2) and a description.
The dollar figures inside the description string are abstracted. -/
def estimate_rds_cost (cat : Catalog) (attr : JObj) (region : JVal) :
    Except String (ℚ × ℚ × String) := do
  let instance_filters : List Filter :=
    [ ("location", region),
      ("instanceType", jgetD attr "instanceType" (.str "db.t3.micro")),
      ("databaseEngine", jgetD attr "databaseEngine" (.str "MySQL")),
      ("termType", jgetD attr "termType" (.str "OnDemand")) ]
  let instance_price_per_hour := get_price cat instance_filters "AmazonRDS"
  let storage_gb ← pyInt (jgetD attr "storageGB" (.num 100))
  let volume_typeJ := jgetD attr "volumeType" (.str "gp2")
  match volume_typeJ with
  | .str volume_type =>
      let _volume_type_for_filter :=
        (CE.lookupStr volume_map (strLower volume_type)).getD "General Purpose"
      let storage_filters : List Filter :=
        [ ("location", region), ("productFamily", .str "Storage"),
          ("group", .str "Amazon RDS Storage"), ("termType", .str "OnDemand") ]
      let price_per_gb_month := get_price cat storage_filters "AmazonRDS"
      let storage_price_per_hour := (price_per_gb_month / 730) * storage_gb
      let total_hourly := instance_price_per_hour + storage_price_per_hour
      let total_monthly := total_hourly * 730
      let description := "RDS " ++ jshow (jgetD attr "instanceType" .null)
        ++ " + " ++ toString storage_gb ++ "GB " ++ strUpper volume_type
        ++ " Storage"
      return (pyRound 6 total_hourly, pyRound 2 total_monthly, description)
  | _ => .error "AttributeError: object has no attribute lower"

/-- One iteration of the node loop of `estimate_cost_from_architecture`:
the unrounded price together with service tag, description and node id, or
`none` for an unsupported service type (`continue`). -/
def nodePrice2 (cat : Catalog) (n : JVal) :
    Except String (Option (ℚ × String × String × JVal)) :=
  match n with
  | .obj node => do
      let serviceJ ← (match jlookup node "type" with
        | some v => Except.ok v
        | none => Except.error "KeyError: type")
      let region := jgetD node "region" (.str "Asia Pacific (Mumbai)")
      let attrv := jgetD node "attributes" (.obj [])
      let getId : Except String JVal :=
        match jlookup node "id" with
        | some v => Except.ok v
        | none => Except.error "KeyError: id"
      let asObj : Except String JObj :=
        match attrv with
        | .obj fs => Except.ok fs
        | _ => Except.error "AttributeError: attributes has no attribute get"
      match serviceJ with
      | .str "AmazonEC2" => do
          let attr ← asObj
          let price := get_price cat (build_ec2_filters attr region) "AmazonEC2"
          let nid ← getId
          return some (price, "AmazonEC2",
            "EC2 " ++ jshow (jgetD attr "instanceType" (.str "t3.micro")), nid)
      | .str "AmazonRDS" => do
          let attr ← asObj
          let rds ← estimate_rds_cost cat attr region
          let nid ← getId
          return some (rds.1, "AmazonRDS", rds.2.2, nid)
      | .str "AmazonS3" => do
          let attr ← asObj
          let size_gb := jgetD attr "storageAmountGB" (.num 100)
          let per_gb := get_price cat (build_s3_filters attr region) "AmazonS3"
          let price ← pyTimes (per_gb / 730) size_gb
          let nid ← getId
          return some (price, "AmazonS3",
            "S3 " ++ jshow size_gb ++ "GB Standard", nid)
      | .str "AmazonCloudFront" => do
          let attr ← asObj
          let data_gb := jgetD attr "dataOutGB" (.num 100)
          let per_gb := get_price cat (build_cloudfront_filters attr)
            "AmazonCloudFront"
          let price ← pyTimes (per_gb / 730) data_gb
          let nid ← getId
          return some (price, "AmazonCloudFront",
            "CloudFront " ++ jshow data_gb ++ "GB Data Transfer", nid)
      | _ => return none
  | _ => .error "AttributeError: node has no attribute get"

/-- The node loop: collects `(unrounded price, breakdown entry)` pairs in
input order; each appended entry rounds its price to 6 decimals. -/
def goC2 (cat : Catalog) : List JVal → Except String (List (ℚ × Entry2))
  | [] => .ok []
  | n :: ns => do
      let r ← nodePrice2 cat n
      let rest ← goC2 cat ns
      match r with
      | some (price, svc, descr, nid) =>
          .ok ((price, ⟨nid, svc, descr, pyRound 6 price⟩) :: rest)
      | none => .ok rest

/-- `estimate_cost_from_architecture`: sums unrounded per-node prices, then
reports the total rounded to 6 decimals (monthly: total × 730, rounded to
2) next to the individually rounded breakdown entries. -/
def estimate_cost_from_architecture (cat : Catalog) (arch : JVal) :
    Except String Report2 := do
  let ns ← (match arch with
    | .obj fs =>
        match jlookup fs "nodes" with
        | some (.arr xs) => Except.ok xs
        | some _ => Except.error "TypeError: nodes is not iterable"
        | none => Except.error "KeyError: nodes"
    | _ => Except.error "TypeError: document is not a dict")
  let rs ← goC2 cat ns
  let total_hourly := (rs.map Prod.fst).sum
  return ⟨pyRound 6 total_hourly, pyRound 2 (total_hourly * 730),
    rs.map Prod.snd⟩

end Cost2

/-! ## `cost_estimator_3.py` (`AWSCostFetcher`)

The reference estimator: per-service price getters that scan catalog
records by unit and description substrings, and `estimate_costs`, which
walks the node list, annotates each node with `CostDetails`/`HourlyCost`,
sums the hourly total and derives monthly (× 730) and yearly (× 12)
figures. `self.region` is the `region` parameter; the per-run
`price_cache`, memoizing pure functions of the fixed catalog snapshot, is
observationally transparent and not modelled. Logging is elided. Plain
numeric f-string interpolations inside detail strings are abstracted by
`jshow`; integer and dollar renderings are exact. -/

namespace CE3

/-- `'hour' in unit or 'hrs' in unit or 'hr' in unit` on the lowercased
unit. -/
def isHourUnit (u : String) : Bool :=
  let l := strLower u
  strIn "hour" l || strIn "hrs" l || strIn "hr" l

/-- First dimension with an hourly unit and a positive USD price. -/
def findHourlyDim (dims : List PriceDim) : Option ℚ :=
  dims.findSome? fun d =>
    if isHourUnit d.unit && decide (0 < d.usd) then some d.usd else none

/-- The EC2/RDS record scan: first positive hourly-unit price in record
order (records without OnDemand terms are skipped). -/
def scanHourly (rs : List PriceRecord) : ℚ :=
  (rs.findSome? fun r => r.terms.findSome? findHourlyDim).getD 0

/-- `get_ec2_price`: exact filters, then relaxed filters when the first
query matches nothing; any client error (including a non-string instance
type rejected by the SDK) is caught and yields `0.0`. -/
def get_ec2_price (cat : Catalog) (region : String) (instance_type : JVal) : ℚ :=
  match instance_type with
  | .str it =>
      (match cat "AmazonEC2"
          [ ("instanceType", .str it), ("operatingSystem", .str "Linux"),
            ("tenancy", .str "Shared"), ("preInstalledSw", .str "NA"),
            ("regionCode", .str region), ("capacityStatus", .str "Used") ] with
      | .error _ => 0
      | .ok rs1 =>
          if rs1.isEmpty then
            match cat "AmazonEC2"
                [ ("instanceType", .str it), ("regionCode", .str region) ] with
            | .error _ => 0
            | .ok rs2 => scanHourly rs2
          else scanHourly rs1)
  | _ => 0

/-- The extra RDS record filter: `engine.lower() in
attributes['databaseEngine'].lower()`. -/
def scanHourlyEngine (engine : String) (rs : List PriceRecord) : ℚ :=
  (rs.findSome? fun r =>
    if strIn (strLower engine) (strLower (strLookup r.attributes "databaseEngine" ""))
    then r.terms.findSome? findHourlyDim else none).getD 0

/-- `get_rds_price`: like `get_ec2_price` with a database-engine attribute
check on each record. -/
def get_rds_price (cat : Catalog) (region : String)
    (db_instance_class engine : JVal) : ℚ :=
  match db_instance_class, engine with
  | .str cls, .str eng =>
      (match cat "AmazonRDS"
          [ ("instanceType", .str cls), ("databaseEngine", .str eng),
            ("deploymentOption", .str "Single-AZ"),
            ("regionCode", .str region) ] with
      | .error _ => 0
      | .ok rs1 =>
          if rs1.isEmpty then
            match cat "AmazonRDS"
                [ ("instanceType", .str cls), ("regionCode", .str region) ] with
            | .error _ => 0
            | .ok rs2 => scanHourlyEngine eng rs2
          else scanHourlyEngine eng rs1)
  | _, _ => 0

/-- The S3 Standard-storage scan: records whose `storageClass` contains
`standard`, first dimension with `gb` in the unit, `storage` in the
description and a positive price. -/
def scanS3Standard (rs : List PriceRecord) : ℚ :=
  (rs.findSome? fun r =>
    if strIn "standard" (strLower (strLookup r.attributes "storageClass" "")) then
      r.terms.findSome? fun t =>
        t.findSome? fun d =>
          if strIn "gb" (strLower d.unit) && strIn "storage" (strLower d.description)
              && decide (0 < d.usd)
          then some d.usd else none
    else none).getD 0

/-- The tier-2/tier-3 scan: each term contributes the price of its first
dimension whose lowercased description satisfies `cond` (the inner loop
breaks there), later terms overwrite earlier ones, and no positivity is
required — the LAST such term wins. -/
def lastTermMatch (cond : String → Bool) (rs : List PriceRecord) : ℚ :=
  rs.foldl (fun acc r =>
    r.terms.foldl (fun a t =>
      match t.findSome? (fun d =>
          if cond (strLower d.description) then some d.usd else none) with
      | some p => p
      | none => a) acc) 0

/-- `get_s3_price`: Standard storage price per GB-month (relaxed re-query
when the exact query is empty, `0.0` on failure, early return `0.0` when no
price is found), applied over the published tiers — first 50 TB, next
450 TB, over 500 TB — with tier-specific description lookups falling back
to the previous tier's rate; finally divided by 730. -/
def get_s3_price (cat : Catalog) (region : String) (storage_gb : ℚ) : ℚ :=
  let price_per_gb :=
    match cat "AmazonS3"
        [ ("volumeType", .str "Standard"), ("regionCode", .str region) ] with
    | .error _ => 0
    | .ok rs1 =>
        if rs1.isEmpty then
          match cat "AmazonS3" [ ("regionCode", .str region) ] with
          | .error _ => 0
          | .ok rs2 => scanS3Standard rs2
        else scanS3Standard rs1
  if price_per_gb = 0 then 0
  else if storage_gb ≤ 51200 then storage_gb * price_per_gb / 730
  else
    let tier1_cost : ℚ := 51200 * price_per_gb
    let remaining : ℚ := storage_gb - 51200
    let tier2_price :=
      match cat "AmazonS3" [ ("regionCode", .str region) ] with
      | .error _ => price_per_gb
      | .ok rs =>
          let t := lastTermMatch
            (fun desc => strIn "next 450 tb" desc || strIn "450 tb" desc) rs
          if t = 0 then price_per_gb else t
    if remaining ≤ 460800 then (tier1_cost + remaining * tier2_price) / 730
    else
      let tier2_cost : ℚ := tier1_cost + 460800 * tier2_price
      let rem2 : ℚ := remaining - 460800
      let tier3_price :=
        match cat "AmazonS3" [ ("regionCode", .str region) ] with
        | .error _ => tier2_price
        | .ok rs =>
            let t := lastTermMatch
              (fun desc => strIn "over 500 tb" desc || strIn "500+ tb" desc) rs
            if t = 0 then tier2_price else t
      (tier2_cost + rem2 * tier3_price) / 730

/-- The DynamoDB scan: walks every dimension (no break), the last matching
description wins for each of the three prices. -/
def scanDynamo (rs : List PriceRecord) : ℚ × ℚ × ℚ :=
  ((rs.map PriceRecord.terms).flatten.flatten).foldl
    (fun acc d =>
      let desc := strLower d.description
      if strIn "read capacity unit" desc then (d.usd, acc.2.1, acc.2.2)
      else if strIn "write capacity unit" desc then (acc.1, d.usd, acc.2.2)
      else if strIn "storage" desc && strIn "data" desc then
        (acc.1, acc.2.1, d.usd)
      else acc) (0, 0, 0)

/-- `get_dynamodb_price`: capacity-unit hourly prices plus storage per
GB-month scaled by 730. -/
def get_dynamodb_price (cat : Catalog) (region : String)
    (read_capacity_units write_capacity_units storage_gb : ℚ) : ℚ :=
  let pricing :=
    match cat "AmazonDynamoDB" [ ("regionCode", .str region) ] with
    | .error _ => (0, 0, 0)
    | .ok rs => scanDynamo rs
  read_capacity_units * pricing.1 + write_capacity_units * pricing.2.1
    + storage_gb * pricing.2.2 / 730

/-- The Lambda scan: last matching description wins (`request` vs
`duration`/`gb-second`). -/
def scanLambda (rs : List PriceRecord) : ℚ × ℚ :=
  ((rs.map PriceRecord.terms).flatten.flatten).foldl
    (fun acc d =>
      let desc := strLower d.description
      if strIn "request" desc then (d.usd, acc.2)
      else if strIn "duration" desc || strIn "gb-second" desc then (acc.1, d.usd)
      else acc) (0, 0)

/-- `get_lambda_price`: request cost per million invocations plus GB-second
compute cost, divided by 730 for an hourly figure. -/
def get_lambda_price (cat : Catalog) (region : String)
    (memory_mb invocations avg_duration_ms : ℤ) : ℚ :=
  let pricing :=
    match cat "AWSLambda" [ ("regionCode", .str region) ] with
    | .error _ => (0, 0)
    | .ok rs => scanLambda rs
  let gb : ℚ := (memory_mb : ℚ) / 1024
  let duration_seconds : ℚ := (avg_duration_ms : ℚ) / 1000
  let monthly_request_cost := ((invocations : ℚ) / 1000000) * pricing.1
  let monthly_compute_cost :=
    (invocations : ℚ) * duration_seconds * gb * pricing.2
  (monthly_request_cost + monthly_compute_cost) / 730

/-- The EBS scan: every dimension visited, last match wins per category
(`storage`/`volume`, `iops`, `throughput`). -/
def scanEbs (rs : List PriceRecord) : ℚ × ℚ × ℚ :=
  ((rs.map PriceRecord.terms).flatten.flatten).foldl
    (fun acc d =>
      let desc := strLower d.description
      if strIn "storage" desc || strIn "volume" desc then
        (d.usd, acc.2.1, acc.2.2)
      else if strIn "iops" desc then (acc.1, d.usd, acc.2.2)
      else if strIn "throughput" desc then (acc.1, acc.2.1, d.usd)
      else acc) (0, 0, 0)

/-- `get_ebs_price`: storage price × size, an IOPS surcharge for `io1`/`io2`
with positive provisioned IOPS, a throughput surcharge for `gp3` above the
125 MB/s baseline, all divided by 730. The catalog part absorbs errors (a
non-string volume type is rejected by the SDK inside the `try`, leaving
zero prices), but `volume_type.lower()` afterwards raises on a
non-string. -/
def get_ebs_price (cat : Catalog) (region : String) (volume_type : JVal)
    (volume_size_gb iops throughput : ℚ) : Except String ℚ := do
  let pricing :=
    match volume_type with
    | .str vt =>
        (match cat "AmazonEC2"
            [ ("productFamily", .str "Storage"), ("volumeApiName", .str vt),
              ("regionCode", .str region) ] with
        | .error _ => (0, 0, 0)
        | .ok rs => scanEbs rs)
    | _ => (0, 0, 0)
  let vt ← pyLower volume_type
  let storage_cost := volume_size_gb * pricing.1
  let iops_cost :=
    if (vt = "io1" ∨ vt = "io2") ∧ 0 < iops then iops * pricing.2.1 else 0
  let throughput_cost :=
    if vt = "gp3" ∧ 125 < throughput then (throughput - 125) * pricing.2.2
    else 0
  return (storage_cost + iops_cost + throughput_cost) / 730

/-- The ELB record walk: on a record whose `usagetype` matches the load
balancer family, each term's first dimension with unit exactly `hrs`
assigns the price (later terms overwrite); a positive price stops the
record loop. -/
def elbScan (lb : String) : List PriceRecord → ℚ → ℚ
  | [], acc => acc
  | r :: rs, acc =>
      let u := strLower (strLookup r.attributes "usagetype" "")
      let matched := (lb = "application" && strIn "alb" u)
        || (lb = "network" && strIn "nlb" u)
        || (lb = "classic" && strIn "elb" u)
      let acc2 :=
        if matched then
          r.terms.foldl (fun a t =>
            match t.findSome? (fun d =>
                if strLower d.unit = "hrs" then some d.usd else none) with
            | some p => p
            | none => a) acc
        else acc
      if 0 < acc2 then acc2 else elbScan lb rs acc2

/-- `get_elb_price`: classic load balancers price under `AmazonEC2`, others
under `AWSELB`; `0.0` on error or no match. -/
def get_elb_price (cat : Catalog) (region : String) (lb_type : String) : ℚ :=
  let service_code :=
    if strLower lb_type = "classic" then "AmazonEC2" else "AWSELB"
  match cat service_code [ ("regionCode", .str region) ] with
  | .error _ => 0
  | .ok rs => elbScan (strLower lb_type) rs 0

/-- Python `str.capitalize()`. -/
def pyCapitalize (s : String) : String :=
  match s.toList with
  | [] => ""
  | c :: rest => String.mk (c.toUpper :: rest.map Char.toLower)

/-- The EC2 branch's walk over declared `EBSVolumes`. -/
def sumVolumes (cat : Catalog) (region : String) :
    List JVal → Except String ℚ
  | [] => .ok 0
  | v :: vs =>
      match v with
      | .obj vol => do
          let vt := jgetD vol "VolumeType" (.str "gp3")
          let size ← pyFloat (jgetD vol "VolumeSize" (.num 20))
          let iops ← pyInt (jgetD vol "IOPS" (.num 0))
          let thr ← pyInt (jgetD vol "Throughput" (.num 0))
          let c ← get_ebs_price cat region vt size (iops : ℚ) (thr : ℚ)
          let rest ← sumVolumes cat region vs
          return c + rest
      | _ => .error "AttributeError: volume has no attribute get"

/-- The `AmazonEC2` branch of `estimate_costs`. -/
def ec2Branch (cat : Catalog) (region : String) (node : JObj) :
    Except String (ℚ × JVal) := do
  let instance_type := jgetD node "InstanceType" (.str "t3.medium")
  let base := get_ec2_price cat region instance_type
  let ebsv := jgetD node "EBSVolumes" (.arr [])
  let ebs_cost ←
    if pyTruthy ebsv then
      match ebsv with
      | .arr vols => sumVolumes cat region vols
      | _ => .error "TypeError: EBSVolumes is not iterable"
    else get_ebs_price cat region (.str "gp3") 20 0 0
  let hourly := base + ebs_cost
  return (hourly, .obj
    [ ("InstanceType", instance_type),
      ("InstanceHourlyCost", .str (formatUSD 4 base)),
      ("EBSStorageHourlyCost", .str (formatUSD 4 ebs_cost)),
      ("TotalHourlyCost", .str (formatUSD 4 hourly)) ])

/-- The `AmazonRDS` branch of `estimate_costs`: instance price (doubled
under Multi-AZ), EBS-priced storage, and a backup surcharge of 10% of the
storage cost scaled by `retention / 7`. -/
def rdsBranch (cat : Catalog) (region : String) (node : JObj) :
    Except String (ℚ × JVal) := do
  let db_engine := jgetD node "DBEngine" (.str "mysql")
  let db_instance_class := jgetD node "DBInstanceClass" (.str "db.t3.medium")
  let storage ← pyFloat (jgetD node "Storage" (.num 20))
  let multi_az := pyTruthy (jgetD node "MultiAZ" (.jbool false))
  let base := get_rds_price cat region db_instance_class db_engine
  let instance_hourly := if multi_az then base * 2 else base
  let storage_type := jgetD node "StorageType" (.str "gp3")
  let iops ← pyInt (jgetD node "IOPS" (.num 0))
  let storage_hourly ←
    get_ebs_price cat region storage_type storage (iops : ℚ) 0
  let backup_retention ← pyInt (jgetD node "BackupRetention" (.num 7))
  let backup_hourly :=
    storage_hourly * (1 / 10) * ((backup_retention : ℚ) / 7)
  let hourly := instance_hourly + storage_hourly + backup_hourly
  return (hourly, .obj
    [ ("DBEngine", db_engine),
      ("DBInstanceClass", db_instance_class),
      ("MultiAZ", .str (if multi_az then "Yes" else "No")),
      ("Storage", .str (jshow (.num storage) ++ " GB")),
      ("InstanceHourlyCost", .str (formatUSD 4 instance_hourly)),
      ("StorageHourlyCost", .str (formatUSD 4 storage_hourly)),
      ("BackupHourlyCost", .str (formatUSD 4 backup_hourly)),
      ("TotalHourlyCost", .str (formatUSD 4 hourly)) ])

/-- The `AmazonS3` branch of `estimate_costs`. -/
def s3Branch (cat : Catalog) (region : String) (node : JObj) :
    Except String (ℚ × JVal) := do
  let storage ← pyFloat (jgetD node "Storage" (.num 100))
  let request_count ← pyInt (jgetD node "RequestCount" (.num 100000))
  let hourly := get_s3_price cat region storage
  return (hourly, .obj
    [ ("Storage", .str (jshow (.num storage) ++ " GB")),
      ("RequestsPerMonth", .str (toString request_count)),
      ("HourlyCost", .str (formatUSD 4 hourly)) ])

/-- The `AmazonDynamoDB` branch of `estimate_costs`. -/
def dynamoBranch (cat : Catalog) (region : String) (node : JObj) :
    Except String (ℚ × JVal) := do
  let rcu ← pyFloat (jgetD node "ReadCapacityUnits" (.num 5))
  let wcu ← pyFloat (jgetD node "WriteCapacityUnits" (.num 5))
  let storage ← pyFloat (jgetD node "Storage" (.num 20))
  let hourly := get_dynamodb_price cat region rcu wcu storage
  return (hourly, .obj
    [ ("ReadCapacityUnits", .str (jshow (.num rcu))),
      ("WriteCapacityUnits", .str (jshow (.num wcu))),
      ("Storage", .str (jshow (.num storage) ++ " GB")),
      ("HourlyCost", .str (formatUSD 4 hourly)) ])

/-- The `AWSLambda` branch of `estimate_costs`. -/
def lambdaBranch (cat : Catalog) (region : String) (node : JObj) :
    Except String (ℚ × JVal) := do
  let memory ← pyInt (jgetD node "Memory" (.num 128))
  let invocations ← pyInt (jgetD node "Invocations" (.num 1000000))
  let avg_duration ← pyInt (jgetD node "AvgDuration" (.num 500))
  let hourly := get_lambda_price cat region memory invocations avg_duration
  return (hourly, .obj
    [ ("Memory", .str (toString memory ++ " MB")),
      ("InvocationsPerMonth", .str (toString invocations)),
      ("AvgDuration", .str (toString avg_duration ++ " ms")),
      ("HourlyCost", .str (formatUSD 4 hourly)) ])

/-- The `AmazonEBS` branch of `estimate_costs`. -/
def ebsBranch (cat : Catalog) (region : String) (node : JObj) :
    Except String (ℚ × JVal) := do
  let volume_type := jgetD node "VolumeType" (.str "gp3")
  let volume_size ← pyFloat (jgetD node "VolumeSize" (.num 20))
  let iops ← pyInt (jgetD node "IOPS" (.num 0))
  let throughput ← pyInt (jgetD node "Throughput" (.num 0))
  let volume_count ← pyInt (jgetD node "VolumeCount" (.num 1))
  let single ←
    get_ebs_price cat region volume_type volume_size (iops : ℚ)
      (throughput : ℚ)
  let hourly := single * (volume_count : ℚ)
  return (hourly, .obj
    [ ("VolumeType", volume_type),
      ("VolumeSize", .str (jshow (.num volume_size) ++ " GB")),
      ("VolumeCount", .str (toString volume_count)),
      ("CostPerVolume", .str (formatUSD 4 single ++ "/hour")),
      ("TotalHourlyCost", .str (formatUSD 4 hourly)) ])

/-- The `AmazonELB`/`AWSELB` branch of `estimate_costs`. -/
def elbBranch (cat : Catalog) (region : String) (node : JObj) :
    Except String (ℚ × JVal) := do
  let lb ← pyLower (jgetD node "LoadBalancerType" (.str "application"))
  let hourly := get_elb_price cat region lb
  return (hourly, .obj
    [ ("LoadBalancerType", .str (pyCapitalize lb)),
      ("HourlyCost", .str (formatUSD 4 hourly)) ])

/-- The per-node dispatch of `estimate_costs`, the source's `if`/`elif`
chain on `node.get("type", "")`: the hourly cost and the `CostDetails`
object for one node. A type with no branch yields cost `0` and empty
details — it is NOT skipped. -/
def nodeHourly (cat : Catalog) (region : String) (node : JObj) :
    Except String (ℚ × JVal) :=
  let node_type := jgetD node "type" (.str "")
  if node_type = .str "AmazonEC2" then ec2Branch cat region node
  else if node_type = .str "AmazonRDS" then rdsBranch cat region node
  else if node_type = .str "AmazonS3" then s3Branch cat region node
  else if node_type = .str "AmazonDynamoDB" then dynamoBranch cat region node
  else if node_type = .str "AWSLambda" then lambdaBranch cat region node
  else if node_type = .str "AmazonEBS" then ebsBranch cat region node
  else if node_type = .str "AmazonELB" ∨ node_type = .str "AWSELB" then
    elbBranch cat region node
  else .ok (0, .obj [])

/-- One loop iteration of `estimate_costs`: reads `id` and `label`, resolves
the cost, and mutates the node only by attaching `CostDetails` and
`HourlyCost`. Returns (updated node, hourly cost, label). -/
def processNode (cat : Catalog) (region : String) (n : JVal) :
    Except String (JVal × ℚ × JVal) :=
  match n with
  | .obj node => do
      let node_id := jgetD node "id" (.str "")
      let node_label := jgetD node "label" node_id
      let r ← nodeHourly cat region node
      let upd := setKey (setKey node "CostDetails" r.2) "HourlyCost"
        (.str (formatUSD 4 r.1))
      return (.obj upd, r.1, node_label)
  | _ => .error "AttributeError: node has no attribute get"

/-- All loop iterations, in node order. -/
def processAll (cat : Catalog) (region : String) :
    List JVal → Except String (List (JVal × ℚ × JVal))
  | [] => .ok []
  | n :: ns => do
      let r ← processNode cat region n
      let rs ← processAll cat region ns
      return r :: rs

/-- The output of `estimate_costs`: the mutated architecture. `nodes` are
the updated node objects; the totals are the numeric values the source
formats into its `TotalCost` object; `serviceBreakdown` is the
`ServiceBreakdown` dict (label to formatted hourly rate, insertion-ordered,
later nodes with an equal label overwriting); `missingPriceData` is the
`PricingWarnings.MissingPriceData` list, which the source attaches only
when non-empty (an empty list models its absence). -/
structure Report3 where
  nodes : List JVal
  totalHourlyCost : ℚ
  monthlyCost : ℚ
  yearlyCost : ℚ
  serviceBreakdown : List (JVal × String)
  missingPriceData : List JVal
  deriving Repr, DecidableEq

/-- `AWSCostFetcher.estimate_costs`: raises unless the document has a
`nodes` key (before any node is processed); processes every node in order;
a node whose hourly cost is `0.0` is recorded under missing price data;
monthly = hourly × 730 and yearly = monthly × 12. -/
def estimate_costs (cat : Catalog) (region : String) (arch : JVal) :
    Except String Report3 := do
  let fs ← (match arch with
    | .obj fields => Except.ok fields
    | _ => Except.error "TypeError: architecture is not a dict")
  let nodesJ ← (match jlookup fs "nodes" with
    | some v => Except.ok v
    | none =>
        Except.error "ValueError: Invalid architecture JSON: nodes key not found")
  let ns ← (match nodesJ with
    | .arr xs => Except.ok xs
    | _ => Except.error "TypeError: nodes is not iterable")
  let results ← processAll cat region ns
  let total_hourly_cost := (results.map fun r => r.2.1).sum
  let missing := (results.filter fun r => r.2.1 == 0).map fun r => r.2.2
  let service_costs := results.foldl
    (fun acc r => setKeyJ acc r.2.2 (formatUSD 4 r.2.1 ++ "/hour")) []
  let monthly_cost := total_hourly_cost * 730
  return ⟨results.map (·.1), total_hourly_cost, monthly_cost,
    monthly_cost * 12, service_costs, missing⟩

/-- The return value of `main`: `1` when loading or estimating raises, `0`
otherwise (the `if __name__` guard discards it, but it is what `main`
reports to its caller). -/
def mainExitCode (cat : Catalog) (region : String) (arch : JVal) : ℕ :=
  match estimate_costs cat region arch with
  | .ok _ => 0
  | .error _ => 1

end CE3

/-! ## Helper lemmas -/

/-- Association lookup in a dict keyed by JSON values. -/
def lookupJv {α : Type} : List (JVal × α) → JVal → Option α
  | [], _ => none
  | (k, v) :: rest, key => if k = key then some v else lookupJv rest key

theorem jlookup_setKey_ne (o : JObj) (key k : String) (v : JVal)
    (h : k ≠ key) : jlookup (setKey o key v) k = jlookup o k := by
  induction o with
  | nil => simp [setKey, jlookup, Ne.symm h]
  | cons p rest ih =>
      obtain ⟨pk, pv⟩ := p
      by_cases hpk : pk = key
      · subst hpk
        simp [setKey, jlookup, h, Ne.symm h]
      · simp only [setKey, if_neg hpk, jlookup]
        by_cases hk : pk = k
        · simp [hk]
        · simp [hk, ih]

theorem lookupJv_setKeyJ_self {α : Type} (m : List (JVal × α)) (k : JVal)
    (v : α) : lookupJv (setKeyJ m k v) k = some v := by
  induction m with
  | nil => simp [setKeyJ, lookupJv]
  | cons p rest ih =>
      obtain ⟨pk, pv⟩ := p
      by_cases hpk : pk = k
      · subst hpk
        simp [setKeyJ, lookupJv]
      · simp [setKeyJ, hpk, lookupJv, ih]

theorem lookupJv_setKeyJ_ne {α : Type} (m : List (JVal × α)) (k k' : JVal)
    (v : α) (h : k' ≠ k) : lookupJv (setKeyJ m k v) k' = lookupJv m k' := by
  induction m with
  | nil => simp [setKeyJ, lookupJv, Ne.symm h]
  | cons p rest ih =>
      obtain ⟨pk, pv⟩ := p
      by_cases hpk : pk = k
      · subst hpk
        by_cases hk : pk = k'
        · exact absurd hk.symm h
        · simp [setKeyJ, lookupJv, hk]
      · simp only [setKeyJ, if_neg hpk, lookupJv]
        by_cases hk : pk = k'
        · simp [hk]
        · simp [hk, ih]

/-- A fold of label insertions whose labels all avoid `l` leaves `l`'s
binding unchanged. -/
theorem lookupJv_foldl_setKeyJ_ne {α : Type}
    (f : (JVal × ℚ × JVal) → α) (l : JVal) :
    ∀ (rs : List (JVal × ℚ × JVal)) (acc : List (JVal × α)),
      (∀ r ∈ rs, r.2.2 ≠ l) →
      lookupJv (rs.foldl (fun acc r => setKeyJ acc r.2.2 (f r)) acc) l
        = lookupJv acc l
  | [], acc, _ => rfl
  | r :: rs, acc, hall => by
      rw [List.foldl_cons]
      rw [lookupJv_foldl_setKeyJ_ne f l rs _ (fun x hx => hall x (by simp [hx]))]
      exact lookupJv_setKeyJ_ne acc r.2.2 l (f r) (Ne.symm (hall r (by simp)))

/-- Inversion of a successful `estimate_costs` run: the document is an
object with a `nodes` list, every node processed, and the report assembled
exactly as the source assembles it. -/
theorem estimate_costs_inv (cat : Catalog) (region : String) (arch : JVal)
    (rep : CE3.Report3) (h : CE3.estimate_costs cat region arch = .ok rep) :
    ∃ fs ns results,
      arch = .obj fs ∧ jlookup fs "nodes" = some (.arr ns) ∧
      CE3.processAll cat region ns = .ok results ∧
      rep = ⟨results.map (·.1), (results.map fun r => r.2.1).sum,
        (results.map fun r => r.2.1).sum * 730,
        (results.map fun r => r.2.1).sum * 730 * 12,
        results.foldl
          (fun acc r => setKeyJ acc r.2.2 (formatUSD 4 r.2.1 ++ "/hour")) [],
        (results.filter fun r => r.2.1 == 0).map fun r => r.2.2⟩ := by
  cases arch with
  | obj fs =>
      simp only [CE3.estimate_costs, bind, Except.bind, Functor.map,
        Except.map, pure, Except.pure] at h
      cases hn : jlookup fs "nodes" with
      | none => simp only [hn] at h; exact Except.noConfusion h
      | some v =>
          simp only [hn] at h
          cases v with
          | arr ns =>
              cases hp : CE3.processAll cat region ns with
              | error e => simp only [hp] at h; exact Except.noConfusion h
              | ok results =>
                  simp only [hp, Except.ok.injEq] at h
                  exact ⟨fs, ns, results, rfl, hn, hp, h.symm⟩
          | null => exact Except.noConfusion h
          | jbool b => exact Except.noConfusion h
          | num q => exact Except.noConfusion h
          | str s => exact Except.noConfusion h
          | obj o => exact Except.noConfusion h
  | null => simp [CE3.estimate_costs, bind, Except.bind] at h
  | jbool b => simp [CE3.estimate_costs, bind, Except.bind] at h
  | num q => simp [CE3.estimate_costs, bind, Except.bind] at h
  | str s => simp [CE3.estimate_costs, bind, Except.bind] at h
  | arr xs => simp [CE3.estimate_costs, bind, Except.bind] at h

/-! ## Claim theorems -/

/-- C2: for every report the Aggregation Engine (`estimate_costs`,
`cost_estimator_3.py`) produces, the estimated monthly cost equals the
total hourly cost multiplied by the fixed constant 730, and the estimated
yearly cost equals the monthly cost multiplied by 12, exactly. -/
theorem conversion_invariants (cat : Catalog) (region : String) (arch : JVal)
    (rep : CE3.Report3) (h : CE3.estimate_costs cat region arch = .ok rep) :
    rep.monthlyCost = rep.totalHourlyCost * 730
      ∧ rep.yearlyCost = rep.monthlyCost * 12 := by
  obtain ⟨fs, ns, results, _, _, _, hrep⟩ := estimate_costs_inv cat region arch rep h
  subst hrep
  exact ⟨rfl, rfl⟩

/-- The all-failures catalog used to witness C2 and C4: every query raises
a transport error (caught at the adapter boundary). -/
def errCat : Catalog := fun _ _ => .error "ConnectionError: network failure"

/-- An architecture document with an empty node list. -/
def archEmpty : JVal := .obj [("nodes", .arr [])]

/-- The report `estimate_costs` produces on `archEmpty` under `errCat`. -/
def repEmpty : CE3.Report3 :=
  match CE3.estimate_costs errCat "us-east-1" archEmpty with
  | .ok r => r
  | .error _ => ⟨[], 0, 0, 0, [], []⟩

/-- Witness for C2: a concrete run satisfying the conversion invariants. -/
theorem conversion_invariants_witness :
    repEmpty.monthlyCost = repEmpty.totalHourlyCost * 730
      ∧ repEmpty.yearlyCost = repEmpty.monthlyCost * 12 :=
  conversion_invariants errCat "us-east-1" archEmpty repEmpty rfl

/-- C5 (amended): a document without a top-level `nodes` list makes
`estimate_costs` raise before any resolver runs — whatever the catalog does
— and `main` reports 1. (The counterexample shows this is not the ONLY
fatal condition, so the claim's "if and only if" fails.) -/
theorem missing_nodes_aborts (cat : Catalog) (region : String) (fs : JObj)
    (h : jlookup fs "nodes" = none) :
    CE3.estimate_costs cat region (.obj fs)
        = .error "ValueError: Invalid architecture JSON: nodes key not found"
      ∧ CE3.mainExitCode cat region (.obj fs) = 1 := by
  have h1 : CE3.estimate_costs cat region (.obj fs)
      = .error "ValueError: Invalid architecture JSON: nodes key not found" := by
    simp only [CE3.estimate_costs, bind, Except.bind, Functor.map, Except.map,
      pure, Except.pure, h]
  exact ⟨h1, by simp [CE3.mainExitCode, h1]⟩

/-- Witness for C5's amended theorem at a concrete document. -/
theorem missing_nodes_aborts_witness :
    CE3.estimate_costs errCat "us-east-1" (.obj [("foo", JVal.null)])
        = .error "ValueError: Invalid architecture JSON: nodes key not found"
      ∧ CE3.mainExitCode errCat "us-east-1" (.obj [("foo", JVal.null)]) = 1 :=
  missing_nodes_aborts errCat "us-east-1" [("foo", JVal.null)] rfl

/-- A catalog snapshot with no records at all (every query matches zero
products). -/
def emptyCat : Catalog := fun _ _ => .ok []

/-- The node list of the C5 counterexample: structurally well-formed —
`nodes` is present — but one S3 node carries a non-numeric `Storage`. -/
def badStorageNodes : List JVal :=
  [.obj [("type", .str "AmazonS3"), ("id", .str "s"), ("Storage", .str "lots")]]

/-- Counterexample to C5 as stated: the document HAS its `nodes` list, yet
estimation aborts (and `main` reports a non-zero code) because a per-node
attribute is not coercible to a number — so malformed structure is not the
only fatal condition. -/
theorem per_node_coercion_is_fatal :
    jlookup [("nodes", JVal.arr badStorageNodes)] "nodes"
        = some (.arr badStorageNodes)
      ∧ CE3.estimate_costs emptyCat "us-east-1"
          (.obj [("nodes", .arr badStorageNodes)])
        = .error "ValueError: could not convert string to float"
      ∧ CE3.mainExitCode emptyCat "us-east-1"
          (.obj [("nodes", .arr badStorageNodes)]) = 1 :=
  ⟨rfl, rfl, rfl⟩

/-- Field access on a JSON value: the object's binding, or nothing. -/
def fieldLookup : JVal → String → Option JVal
  | .obj o, k => jlookup o k
  | _, _ => none

/-- A node's effective label: `node.get("label", node.get("id", ""))`. -/
def labelOfJ : JVal → JVal
  | .obj o => jgetD o "label" (jgetD o "id" (.str ""))
  | _ => .null

theorem processNode_inv (cat : Catalog) (region : String) (n : JVal)
    (u : JVal) (q : ℚ) (l : JVal)
    (h : CE3.processNode cat region n = .ok (u, q, l)) :
    ∃ node hc cd, n = .obj node ∧ CE3.nodeHourly cat region node = .ok (hc, cd)
      ∧ q = hc ∧ l = labelOfJ n
      ∧ u = .obj (setKey (setKey node "CostDetails" cd) "HourlyCost"
          (.str (formatUSD 4 hc))) := by
  cases n with
  | obj node =>
      simp only [CE3.processNode, bind, Except.bind, pure, Except.pure] at h
      cases hr : CE3.nodeHourly cat region node with
      | error e => simp only [hr] at h; exact Except.noConfusion h
      | ok r =>
          simp only [hr, Except.ok.injEq, Prod.mk.injEq] at h
          obtain ⟨hu, hq, hl⟩ := h
          exact ⟨node, r.1, r.2, rfl, by rw [hr], hq.symm, hl.symm,
            hu.symm⟩
  | null => exact Except.noConfusion h
  | jbool b => exact Except.noConfusion h
  | num q' => exact Except.noConfusion h
  | str s => exact Except.noConfusion h
  | arr xs => exact Except.noConfusion h

/-- The per-node frame property: processing changes no field of the node
other than `CostDetails` and `HourlyCost`. -/
theorem processNode_frame (cat : Catalog) (region : String) (n : JVal)
    (u : JVal) (q : ℚ) (l : JVal)
    (h : CE3.processNode cat region n = .ok (u, q, l)) (k : String)
    (h1 : k ≠ "CostDetails") (h2 : k ≠ "HourlyCost") :
    fieldLookup u k = fieldLookup n k := by
  obtain ⟨node, hc, cd, hn, _, _, _, hu⟩ := processNode_inv cat region n u q l h
  subst hn hu
  show jlookup (setKey (setKey node "CostDetails" cd) "HourlyCost" _) k
    = jlookup node k
  rw [jlookup_setKey_ne _ _ _ _ h2, jlookup_setKey_ne _ _ _ _ h1]

theorem processAll_frame (cat : Catalog) (region : String) :
    ∀ (ns : List JVal) (results : List (JVal × ℚ × JVal)),
      CE3.processAll cat region ns = .ok results →
      List.Forall₂ (fun orig upd => ∀ k, k ≠ "CostDetails" →
        k ≠ "HourlyCost" → fieldLookup upd k = fieldLookup orig k)
        ns (results.map (·.1))
  | [], results, h => by
      simp only [CE3.processAll, Except.ok.injEq] at h
      subst h
      exact List.Forall₂.nil
  | n :: ns, results, h => by
      simp only [CE3.processAll, bind, Except.bind, pure, Except.pure] at h
      cases hr : CE3.processNode cat region n with
      | error e => simp only [hr] at h; exact Except.noConfusion h
      | ok r =>
          simp only [hr] at h
          cases hrest : CE3.processAll cat region ns with
          | error e => simp only [hrest] at h; exact Except.noConfusion h
          | ok rs =>
              simp only [hrest, Except.ok.injEq] at h
              subst h
              refine List.Forall₂.cons ?_ (processAll_frame cat region ns rs hrest)
              intro k h1 h2
              exact processNode_frame cat region n r.1 r.2.1 r.2.2
                (by rw [hr]) k h1 h2

/-- C9: the Aggregation Engine mutates no input node except to attach that
node's own cost annotation: for every node, every field other than the
added `CostDetails` and `HourlyCost` keys has the same value in the
corresponding output node. -/
theorem node_mutation_frame (cat : Catalog) (region : String) (fs : JObj)
    (ns : List JVal) (rep : CE3.Report3)
    (h : CE3.estimate_costs cat region (.obj fs) = .ok rep)
    (hn : jlookup fs "nodes" = some (.arr ns)) :
    List.Forall₂ (fun orig upd => ∀ k, k ≠ "CostDetails" →
      k ≠ "HourlyCost" → fieldLookup upd k = fieldLookup orig k)
      ns rep.nodes := by
  obtain ⟨fs', ns', results, hobj, hn', hp, hrep⟩ :=
    estimate_costs_inv cat region (.obj fs) rep h
  obtain rfl : fs = fs' := by injection hobj
  obtain rfl : ns = ns' := by
    rw [hn] at hn'
    injection hn' with hv
    injection hv
  subst hrep
  exact processAll_frame cat region ns results hp

/-- A one-node architecture with an extra field, for the C9 witness. -/
def frameNode : JObj :=
  [("type", .str "AmazonDynamoDB"), ("id", .str "t"), ("extra", .num 5)]

/-- The report of running `estimate_costs` on the C9 witness input. -/
def frameRep : CE3.Report3 :=
  match CE3.estimate_costs emptyCat "us-east-1"
      (.obj [("nodes", .arr [.obj frameNode])]) with
  | .ok r => r
  | .error _ => ⟨[], 0, 0, 0, [], []⟩

/-- Witness for C9 at a concrete architecture. -/
theorem node_mutation_frame_witness :
    List.Forall₂ (fun orig upd => ∀ k, k ≠ "CostDetails" →
      k ≠ "HourlyCost" → fieldLookup upd k = fieldLookup orig k)
      [.obj frameNode] frameRep.nodes :=
  node_mutation_frame emptyCat "us-east-1"
    [("nodes", .arr [.obj frameNode])] [.obj frameNode] frameRep rfl rfl

/-- The node types `estimate_costs` has a branch for. -/
def recognizedType (t : JVal) : Bool :=
  decide (t = .str "AmazonEC2") || decide (t = .str "AmazonRDS")
    || decide (t = .str "AmazonS3") || decide (t = .str "AmazonDynamoDB")
    || decide (t = .str "AWSLambda") || decide (t = .str "AmazonEBS")
    || decide (t = .str "AmazonELB") || decide (t = .str "AWSELB")

/-- A node of unrecognized type falls through every branch: zero cost and
empty details, never an exception. -/
theorem nodeHourly_unknown (cat : Catalog) (region : String) (node : JObj)
    (h : recognizedType (jgetD node "type" (.str "")) = false) :
    CE3.nodeHourly cat region node = .ok (0, .obj []) := by
  simp only [recognizedType, Bool.or_eq_false_iff, decide_eq_false_iff_not] at h
  obtain ⟨⟨⟨⟨⟨⟨⟨h1, h2⟩, h3⟩, h4⟩, h5⟩, h6⟩, h7⟩, h8⟩ := h
  simp [CE3.nodeHourly, h1, h2, h3, h4, h5, h6, h7, h8]

/-- Decomposition of a processed node list around one member. -/
theorem processAll_append (cat : Catalog) (region : String) :
    ∀ (pre rest : List JVal) (results : List (JVal × ℚ × JVal)),
      CE3.processAll cat region (pre ++ rest) = .ok results →
      ∃ r1 r2, CE3.processAll cat region pre = .ok r1
        ∧ CE3.processAll cat region rest = .ok r2 ∧ results = r1 ++ r2
  | [], rest, results, h => ⟨[], results, rfl, h, rfl⟩
  | n :: pre, rest, results, h => by
      rw [List.cons_append] at h
      simp only [CE3.processAll, bind, Except.bind, pure, Except.pure] at h
      cases hr : CE3.processNode cat region n with
      | error e => simp only [hr] at h; exact Except.noConfusion h
      | ok r =>
          simp only [hr] at h
          cases hrest : CE3.processAll cat region (pre ++ rest) with
          | error e => simp only [hrest] at h; exact Except.noConfusion h
          | ok rs =>
              simp only [hrest, Except.ok.injEq] at h
              obtain ⟨r1, r2, h1, h2, h3⟩ :=
                processAll_append cat region pre rest rs hrest
              refine ⟨r :: r1, r2, ?_, h2, by rw [← h, h3]; simp⟩
              simp only [CE3.processAll, bind, Except.bind, hr, h1, pure,
                Except.pure]

/-- Every result of a processed list carries the label of its node. -/
theorem processAll_labels (cat : Catalog) (region : String) :
    ∀ (ns : List JVal) (results : List (JVal × ℚ × JVal)),
      CE3.processAll cat region ns = .ok results →
      ∀ r ∈ results, ∃ m ∈ ns, r.2.2 = labelOfJ m
  | [], results, h => by
      simp only [CE3.processAll, Except.ok.injEq] at h
      subst h
      intro r hr
      exact absurd hr (List.not_mem_nil r)
  | n :: ns, results, h => by
      simp only [CE3.processAll, bind, Except.bind, pure, Except.pure] at h
      cases hr : CE3.processNode cat region n with
      | error e => simp only [hr] at h; exact Except.noConfusion h
      | ok r =>
          simp only [hr] at h
          cases hrest : CE3.processAll cat region ns with
          | error e => simp only [hrest] at h; exact Except.noConfusion h
          | ok rs =>
              simp only [hrest, Except.ok.injEq] at h
              subst h
              intro x hx
              rcases List.mem_cons.mp hx with hx | hx
              · subst hx
                obtain ⟨node, hc, cd, hn, _, _, hl, _⟩ :=
                  processNode_inv cat region n x.1 x.2.1 x.2.2 (by rw [hr])
                exact ⟨n, by simp, hl⟩
              · obtain ⟨m, hm, hml⟩ :=
                  processAll_labels cat region ns rs hrest x hx
                exact ⟨m, by simp [hm], hml⟩

/-- C6 (amended): a node whose type has no branch does not abort the run,
but — contrary to the claim — it is NOT excluded from the breakdown: the
service breakdown carries a zero-cost entry for it (`"$0.0000/hour"`), and
its label lands in the missing-price-data warning list. The
no-later-duplicate-label hypothesis reflects the breakdown being a
label-keyed dict. -/
theorem unrecognized_type_zero_entry (cat : Catalog) (region : String)
    (fs : JObj) (pre post : List JVal) (node : JObj) (rep : CE3.Report3)
    (h : CE3.estimate_costs cat region (.obj fs) = .ok rep)
    (hn : jlookup fs "nodes" = some (.arr (pre ++ .obj node :: post)))
    (hunk : recognizedType (jgetD node "type" (.str "")) = false)
    (hpost : ∀ m ∈ post, labelOfJ m ≠ labelOfJ (.obj node)) :
    labelOfJ (.obj node) ∈ rep.missingPriceData
      ∧ lookupJv rep.serviceBreakdown (labelOfJ (.obj node))
          = some "$0.0000/hour" := by
  obtain ⟨fs', ns', results, hobj, hn', hp, hrep⟩ :=
    estimate_costs_inv cat region (.obj fs) rep h
  obtain rfl : fs = fs' := by injection hobj
  rw [hn] at hn'
  obtain rfl : pre ++ .obj node :: post = ns' := by
    injection hn' with hv
    injection hv
  subst hrep
  obtain ⟨r1, r2, h1, h2, h3⟩ :=
    processAll_append cat region pre (.obj node :: post) results hp
  have hprocessed : CE3.processNode cat region (.obj node)
      = .ok (.obj (setKey (setKey node "CostDetails" (.obj [])) "HourlyCost"
          (.str (formatUSD 4 0))), 0, labelOfJ (.obj node)) := by
    simp only [CE3.processNode, bind, Except.bind,
      nodeHourly_unknown cat region node hunk, pure, Except.pure, labelOfJ,
      jgetD]
  rw [show ((.obj node : JVal) :: post) = [.obj node] ++ post from rfl] at h2
  obtain ⟨rn1, rpost, h4, h5, h6⟩ :=
    processAll_append cat region [.obj node] post r2 h2
  have hrn1 : rn1 = [(.obj (setKey (setKey node "CostDetails" (.obj []))
      "HourlyCost" (.str (formatUSD 4 0))), 0, labelOfJ (.obj node))] := by
    simp only [CE3.processAll, bind, Except.bind, hprocessed, pure,
      Except.pure, Except.ok.injEq] at h4
    exact h4.symm
  subst hrn1 h6 h3
  set L := labelOfJ (.obj node) with hL
  set upd0 : JVal := .obj (setKey (setKey node "CostDetails" (.obj []))
    "HourlyCost" (.str (formatUSD 4 0))) with hupd
  constructor
  · refine List.mem_map.mpr ⟨(upd0, 0, L), List.mem_filter.mpr ⟨?_, by simp⟩,
      rfl⟩
    simp
  · have hv0 : formatUSD 4 (0 : ℚ) ++ "/hour" = "$0.0000/hour" := by
      with_unfolding_all rfl
    have hpostlab : ∀ r ∈ rpost, r.2.2 ≠ L := by
      intro r hr
      obtain ⟨m, hm, hml⟩ := processAll_labels cat region post rpost h5 r hr
      rw [hml]
      exact hpost m hm
    rw [List.foldl_append, List.foldl_append]
    simp only [List.foldl_cons, List.foldl_nil]
    rw [lookupJv_foldl_setKeyJ_ne _ L rpost _ hpostlab]
    rw [lookupJv_setKeyJ_self, hv0]

/-- The architecture of the C6 witness: one recognized node, then a node of
unknown type. -/
def mixedNodes : List JVal :=
  [.obj [("type", .str "AmazonDynamoDB"), ("id", .str "db")],
   .obj [("type", .str "Mystery"), ("id", .str "m")]]

/-- The C6 witness node of unrecognized type. -/
def mysteryNode : JObj := [("type", .str "Mystery"), ("id", .str "m")]

/-- The report of the C6 witness run. -/
def mixedRep : CE3.Report3 :=
  match CE3.estimate_costs emptyCat "us-east-1"
      (.obj [("nodes", .arr mixedNodes)]) with
  | .ok r => r
  | .error _ => ⟨[], 0, 0, 0, [], []⟩

/-- Witness for C6's amended theorem at a concrete mixed architecture. -/
theorem unrecognized_type_zero_entry_witness :
    labelOfJ (.obj mysteryNode) ∈ mixedRep.missingPriceData
      ∧ lookupJv mixedRep.serviceBreakdown (labelOfJ (.obj mysteryNode))
          = some "$0.0000/hour" :=
  unrecognized_type_zero_entry emptyCat "us-east-1"
    [("nodes", .arr mixedNodes)]
    [.obj [("type", .str "AmazonDynamoDB"), ("id", .str "db")]] []
    mysteryNode mixedRep rfl rfl rfl
    (fun m hm => absurd hm (List.not_mem_nil m))

/-- The single-unknown-node architecture of the C6 counterexample. -/
def unkArch : JVal :=
  .obj [("nodes", .arr [.obj [("type", .str "FooService"), ("id", .str "x")]])]

/-- The report of the C6 counterexample run. -/
def unkRep : CE3.Report3 :=
  match CE3.estimate_costs emptyCat "us-east-1" unkArch with
  | .ok r => r
  | .error _ => ⟨[], 0, 0, 0, [], []⟩

/-- Counterexample to C6 as stated: the unrecognized-type node is NOT
omitted from the breakdown — the run succeeds and its service breakdown is
exactly the one zero-cost entry for that node (which is also warned about
as missing price data). -/
theorem unrecognized_type_in_breakdown :
    CE3.estimate_costs emptyCat "us-east-1" unkArch = .ok unkRep
      ∧ unkRep.serviceBreakdown = [(.str "x", "$0.0000/hour")]
      ∧ unkRep.missingPriceData = [.str "x"] :=
  ⟨rfl, by with_unfolding_all rfl, by with_unfolding_all rfl⟩

section CatalogFailure

variable {cat : Catalog} {region : String} {emsg : String}

theorem get_ec2_price_zero
    (hcat : ∀ sc f, cat sc f = .error emsg ∨ cat sc f = .ok [])
    (it : JVal) : CE3.get_ec2_price cat region it = 0 := by
  cases it with
  | str s =>
      unfold CE3.get_ec2_price
      rcases hcat "AmazonEC2"
          [ ("instanceType", .str s), ("operatingSystem", .str "Linux"),
            ("tenancy", .str "Shared"), ("preInstalledSw", .str "NA"),
            ("regionCode", .str region), ("capacityStatus", .str "Used") ]
        with h | h
      · simp [h]
      · rcases hcat "AmazonEC2"
            [ ("instanceType", .str s), ("regionCode", .str region) ]
          with h2 | h2 <;> simp [h, h2, CE3.scanHourly]
  | null => rfl
  | jbool b => rfl
  | num q => rfl
  | arr xs => rfl
  | obj o => rfl

theorem get_rds_price_zero
    (hcat : ∀ sc f, cat sc f = .error emsg ∨ cat sc f = .ok [])
    (cls eng : JVal) : CE3.get_rds_price cat region cls eng = 0 := by
  cases cls with
  | str c =>
      cases eng with
      | str e =>
          unfold CE3.get_rds_price
          rcases hcat "AmazonRDS"
              [ ("instanceType", .str c), ("databaseEngine", .str e),
                ("deploymentOption", .str "Single-AZ"),
                ("regionCode", .str region) ]
            with h | h
          · simp [h]
          · rcases hcat "AmazonRDS"
                [ ("instanceType", .str c), ("regionCode", .str region) ]
              with h2 | h2 <;> simp [h, h2, CE3.scanHourlyEngine]
      | null => rfl
      | jbool b => rfl
      | num q => rfl
      | arr xs => rfl
      | obj o => rfl
  | null => rfl
  | jbool b => rfl
  | num q => rfl
  | arr xs => rfl
  | obj o => rfl

theorem get_s3_price_zero
    (hcat : ∀ sc f, cat sc f = .error emsg ∨ cat sc f = .ok [])
    (g : ℚ) : CE3.get_s3_price cat region g = 0 := by
  unfold CE3.get_s3_price
  rcases hcat "AmazonS3"
      [ ("volumeType", .str "Standard"), ("regionCode", .str region) ]
    with h | h
  · simp [h]
  · rcases hcat "AmazonS3" [ ("regionCode", .str region) ] with h2 | h2 <;>
      simp [h, h2, CE3.scanS3Standard]

theorem get_dynamodb_price_zero
    (hcat : ∀ sc f, cat sc f = .error emsg ∨ cat sc f = .ok [])
    (r w s : ℚ) : CE3.get_dynamodb_price cat region r w s = 0 := by
  unfold CE3.get_dynamodb_price
  rcases hcat "AmazonDynamoDB" [ ("regionCode", .str region) ] with h | h <;>
    simp [h, CE3.scanDynamo]

theorem get_lambda_price_zero
    (hcat : ∀ sc f, cat sc f = .error emsg ∨ cat sc f = .ok [])
    (m i a : ℤ) : CE3.get_lambda_price cat region m i a = 0 := by
  unfold CE3.get_lambda_price
  rcases hcat "AWSLambda" [ ("regionCode", .str region) ] with h | h <;>
    simp [h, CE3.scanLambda]

theorem get_elb_price_zero
    (hcat : ∀ sc f, cat sc f = .error emsg ∨ cat sc f = .ok [])
    (lb : String) : CE3.get_elb_price cat region lb = 0 := by
  unfold CE3.get_elb_price
  rcases hcat (if strLower lb = "classic" then "AmazonEC2" else "AWSELB")
      [ ("regionCode", .str region) ] with h | h <;>
    simp [h, CE3.elbScan]

theorem get_ebs_price_ok_zero
    (hcat : ∀ sc f, cat sc f = .error emsg ∨ cat sc f = .ok [])
    (vt : JVal) (s i t x : ℚ)
    (h : CE3.get_ebs_price cat region vt s i t = .ok x) : x = 0 := by
  cases vt with
  | str v =>
      unfold CE3.get_ebs_price at h
      rcases hcat "AmazonEC2"
          [ ("productFamily", .str "Storage"), ("volumeApiName", .str v),
            ("regionCode", .str region) ] with hq | hq <;>
        simp only [hq, CE3.scanEbs, List.map_nil, List.flatten_nil,
          List.foldl_nil, bind, Except.bind, pyLower, pure, Except.pure,
          Except.ok.injEq] at h <;>
        · rw [← h]; simp
  | null =>
      unfold CE3.get_ebs_price at h
      simp only [bind, Except.bind, pyLower] at h
      exact Except.noConfusion h
  | jbool b =>
      unfold CE3.get_ebs_price at h
      simp only [bind, Except.bind, pyLower] at h
      exact Except.noConfusion h
  | num q =>
      unfold CE3.get_ebs_price at h
      simp only [bind, Except.bind, pyLower] at h
      exact Except.noConfusion h
  | arr xs =>
      unfold CE3.get_ebs_price at h
      simp only [bind, Except.bind, pyLower] at h
      exact Except.noConfusion h
  | obj o =>
      unfold CE3.get_ebs_price at h
      simp only [bind, Except.bind, pyLower] at h
      exact Except.noConfusion h

theorem sumVolumes_ok_zero
    (hcat : ∀ sc f, cat sc f = .error emsg ∨ cat sc f = .ok []) :
    ∀ (vols : List JVal) (x : ℚ),
      CE3.sumVolumes cat region vols = .ok x → x = 0
  | [], x, h => by
      simp only [CE3.sumVolumes, Except.ok.injEq] at h
      exact h.symm
  | v :: vs, x, h => by
      cases v with
      | obj vol =>
          simp only [CE3.sumVolumes, bind, Except.bind, pure, Except.pure] at h
          cases h1 : pyFloat (jgetD vol "VolumeSize" (.num 20)) with
          | error e => simp only [h1] at h; exact Except.noConfusion h
          | ok size =>
          simp only [h1] at h
          cases h2 : pyInt (jgetD vol "IOPS" (.num 0)) with
          | error e => simp only [h2] at h; exact Except.noConfusion h
          | ok iops =>
          simp only [h2] at h
          cases h3 : pyInt (jgetD vol "Throughput" (.num 0)) with
          | error e => simp only [h3] at h; exact Except.noConfusion h
          | ok thr =>
          simp only [h3] at h
          cases h4 : CE3.get_ebs_price cat region
              (jgetD vol "VolumeType" (.str "gp3")) size (iops : ℚ)
              (thr : ℚ) with
          | error e => simp only [h4] at h; exact Except.noConfusion h
          | ok c =>
          simp only [h4] at h
          cases h5 : CE3.sumVolumes cat region vs with
          | error e => simp only [h5] at h; exact Except.noConfusion h
          | ok rest =>
          simp only [h5, Except.ok.injEq] at h
          rw [← h, get_ebs_price_ok_zero hcat _ _ _ _ _ h4,
            sumVolumes_ok_zero hcat vs rest h5]
          simp
      | null => exact Except.noConfusion h
      | jbool b => exact Except.noConfusion h
      | num q => exact Except.noConfusion h
      | str s => exact Except.noConfusion h
      | arr xs => exact Except.noConfusion h

theorem ec2Branch_ok_zero
    (hcat : ∀ sc f, cat sc f = .error emsg ∨ cat sc f = .ok [])
    (node : JObj) (r : ℚ × JVal)
    (h : CE3.ec2Branch cat region node = .ok r) : r.1 = 0 := by
  simp only [CE3.ec2Branch, bind, Except.bind, pure, Except.pure,
    get_ec2_price_zero hcat] at h
  by_cases ht : pyTruthy (jgetD node "EBSVolumes" (.arr []))
  · simp only [ht, if_true] at h
    cases hv : jgetD node "EBSVolumes" (.arr []) with
    | arr vols =>
        simp only [hv] at h
        cases hs : CE3.sumVolumes cat region vols with
        | error e => simp only [hs] at h; exact Except.noConfusion h
        | ok c =>
            simp only [hs, Except.ok.injEq] at h
            rw [← h]
            simp [sumVolumes_ok_zero hcat vols c hs]
    | null => simp only [hv] at h; exact Except.noConfusion h
    | jbool b => simp only [hv] at h; exact Except.noConfusion h
    | num q => simp only [hv] at h; exact Except.noConfusion h
    | str s => simp only [hv] at h; exact Except.noConfusion h
    | obj o => simp only [hv] at h; exact Except.noConfusion h
  · simp only [ht, if_false, Bool.false_eq_true] at h
    cases hs : CE3.get_ebs_price cat region (.str "gp3") 20 0 0 with
    | error e => simp only [hs] at h; exact Except.noConfusion h
    | ok c =>
        simp only [hs, Except.ok.injEq] at h
        rw [← h]
        simp [get_ebs_price_ok_zero hcat _ _ _ _ _ hs]

theorem rdsBranch_ok_zero
    (hcat : ∀ sc f, cat sc f = .error emsg ∨ cat sc f = .ok [])
    (node : JObj) (r : ℚ × JVal)
    (h : CE3.rdsBranch cat region node = .ok r) : r.1 = 0 := by
  simp only [CE3.rdsBranch, bind, Except.bind, pure, Except.pure,
    get_rds_price_zero hcat] at h
  cases h1 : pyFloat (jgetD node "Storage" (.num 20)) with
  | error e => simp only [h1] at h; exact Except.noConfusion h
  | ok storage =>
  simp only [h1] at h
  cases h2 : pyInt (jgetD node "IOPS" (.num 0)) with
  | error e => simp only [h2] at h; exact Except.noConfusion h
  | ok iops =>
  simp only [h2] at h
  cases h3 : CE3.get_ebs_price cat region (jgetD node "StorageType" (.str "gp3"))
      storage (iops : ℚ) 0 with
  | error e => simp only [h3] at h; exact Except.noConfusion h
  | ok st =>
  simp only [h3] at h
  cases h4 : pyInt (jgetD node "BackupRetention" (.num 7)) with
  | error e => simp only [h4] at h; exact Except.noConfusion h
  | ok retention =>
  simp only [h4, Except.ok.injEq] at h
  rw [← h]
  simp [get_ebs_price_ok_zero hcat _ _ _ _ _ h3]

theorem s3Branch_ok_zero
    (hcat : ∀ sc f, cat sc f = .error emsg ∨ cat sc f = .ok [])
    (node : JObj) (r : ℚ × JVal)
    (h : CE3.s3Branch cat region node = .ok r) : r.1 = 0 := by
  simp only [CE3.s3Branch, bind, Except.bind, pure, Except.pure,
    get_s3_price_zero hcat] at h
  cases h1 : pyFloat (jgetD node "Storage" (.num 100)) with
  | error e => simp only [h1] at h; exact Except.noConfusion h
  | ok storage =>
  simp only [h1] at h
  cases h2 : pyInt (jgetD node "RequestCount" (.num 100000)) with
  | error e => simp only [h2] at h; exact Except.noConfusion h
  | ok rc =>
  simp only [h2, Except.ok.injEq] at h
  rw [← h]

theorem dynamoBranch_ok_zero
    (hcat : ∀ sc f, cat sc f = .error emsg ∨ cat sc f = .ok [])
    (node : JObj) (r : ℚ × JVal)
    (h : CE3.dynamoBranch cat region node = .ok r) : r.1 = 0 := by
  simp only [CE3.dynamoBranch, bind, Except.bind, pure, Except.pure] at h
  cases h1 : pyFloat (jgetD node "ReadCapacityUnits" (.num 5)) with
  | error e => simp only [h1] at h; exact Except.noConfusion h
  | ok rcu =>
  simp only [h1] at h
  cases h2 : pyFloat (jgetD node "WriteCapacityUnits" (.num 5)) with
  | error e => simp only [h2] at h; exact Except.noConfusion h
  | ok wcu =>
  simp only [h2] at h
  cases h3 : pyFloat (jgetD node "Storage" (.num 20)) with
  | error e => simp only [h3] at h; exact Except.noConfusion h
  | ok storage =>
  simp only [h3, Except.ok.injEq] at h
  rw [← h]
  simp [get_dynamodb_price_zero hcat]

theorem lambdaBranch_ok_zero
    (hcat : ∀ sc f, cat sc f = .error emsg ∨ cat sc f = .ok [])
    (node : JObj) (r : ℚ × JVal)
    (h : CE3.lambdaBranch cat region node = .ok r) : r.1 = 0 := by
  simp only [CE3.lambdaBranch, bind, Except.bind, pure, Except.pure] at h
  cases h1 : pyInt (jgetD node "Memory" (.num 128)) with
  | error e => simp only [h1] at h; exact Except.noConfusion h
  | ok m =>
  simp only [h1] at h
  cases h2 : pyInt (jgetD node "Invocations" (.num 1000000)) with
  | error e => simp only [h2] at h; exact Except.noConfusion h
  | ok i =>
  simp only [h2] at h
  cases h3 : pyInt (jgetD node "AvgDuration" (.num 500)) with
  | error e => simp only [h3] at h; exact Except.noConfusion h
  | ok a =>
  simp only [h3, Except.ok.injEq] at h
  rw [← h]
  simp [get_lambda_price_zero hcat]

theorem ebsBranch_ok_zero
    (hcat : ∀ sc f, cat sc f = .error emsg ∨ cat sc f = .ok [])
    (node : JObj) (r : ℚ × JVal)
    (h : CE3.ebsBranch cat region node = .ok r) : r.1 = 0 := by
  simp only [CE3.ebsBranch, bind, Except.bind, pure, Except.pure] at h
  cases h1 : pyFloat (jgetD node "VolumeSize" (.num 20)) with
  | error e => simp only [h1] at h; exact Except.noConfusion h
  | ok size =>
  simp only [h1] at h
  cases h2 : pyInt (jgetD node "IOPS" (.num 0)) with
  | error e => simp only [h2] at h; exact Except.noConfusion h
  | ok iops =>
  simp only [h2] at h
  cases h3 : pyInt (jgetD node "Throughput" (.num 0)) with
  | error e => simp only [h3] at h; exact Except.noConfusion h
  | ok thr =>
  simp only [h3] at h
  cases h4 : pyInt (jgetD node "VolumeCount" (.num 1)) with
  | error e => simp only [h4] at h; exact Except.noConfusion h
  | ok count =>
  simp only [h4] at h
  cases h5 : CE3.get_ebs_price cat region (jgetD node "VolumeType" (.str "gp3"))
      size (iops : ℚ) (thr : ℚ) with
  | error e => simp only [h5] at h; exact Except.noConfusion h
  | ok single =>
  simp only [h5, Except.ok.injEq] at h
  rw [← h]
  simp [get_ebs_price_ok_zero hcat _ _ _ _ _ h5]

theorem elbBranch_ok_zero
    (hcat : ∀ sc f, cat sc f = .error emsg ∨ cat sc f = .ok [])
    (node : JObj) (r : ℚ × JVal)
    (h : CE3.elbBranch cat region node = .ok r) : r.1 = 0 := by
  simp only [CE3.elbBranch, bind, Except.bind, pure, Except.pure] at h
  cases h1 : pyLower (jgetD node "LoadBalancerType" (.str "application")) with
  | error e => simp only [h1] at h; exact Except.noConfusion h
  | ok lb =>
  simp only [h1, Except.ok.injEq] at h
  rw [← h]
  simp [get_elb_price_zero hcat]

theorem nodeHourly_ok_zero
    (hcat : ∀ sc f, cat sc f = .error emsg ∨ cat sc f = .ok [])
    (node : JObj) (r : ℚ × JVal)
    (h : CE3.nodeHourly cat region node = .ok r) : r.1 = 0 := by
  unfold CE3.nodeHourly at h
  simp only [] at h
  split_ifs at h with t1 t2 t3 t4 t5 t6 t7
  · exact ec2Branch_ok_zero hcat node r h
  · exact rdsBranch_ok_zero hcat node r h
  · exact s3Branch_ok_zero hcat node r h
  · exact dynamoBranch_ok_zero hcat node r h
  · exact lambdaBranch_ok_zero hcat node r h
  · exact ebsBranch_ok_zero hcat node r h
  · exact elbBranch_ok_zero hcat node r h
  · injection h with h
    rw [← h]

theorem processNode_ok_zero
    (hcat : ∀ sc f, cat sc f = .error emsg ∨ cat sc f = .ok [])
    (n : JVal) (u : JVal) (q : ℚ) (l : JVal)
    (h : CE3.processNode cat region n = .ok (u, q, l)) : q = 0 := by
  obtain ⟨node, hc, cd, hn, hh, hq, _, _⟩ := processNode_inv cat region n u q l h
  rw [hq]
  exact nodeHourly_ok_zero hcat node (hc, cd) hh

theorem processAll_ok_zero
    (hcat : ∀ sc f, cat sc f = .error emsg ∨ cat sc f = .ok []) :
    ∀ (ns : List JVal) (results : List (JVal × ℚ × JVal)),
      CE3.processAll cat region ns = .ok results →
      ∀ r ∈ results, r.2.1 = 0
  | [], results, h => by
      simp only [CE3.processAll, Except.ok.injEq] at h
      subst h
      intro r hr
      exact absurd hr (List.not_mem_nil r)
  | n :: ns, results, h => by
      simp only [CE3.processAll, bind, Except.bind, pure, Except.pure] at h
      cases hr : CE3.processNode cat region n with
      | error e => simp only [hr] at h; exact Except.noConfusion h
      | ok r =>
          simp only [hr] at h
          cases hrest : CE3.processAll cat region ns with
          | error e => simp only [hrest] at h; exact Except.noConfusion h
          | ok rs =>
              simp only [hrest, Except.ok.injEq] at h
              subst h
              intro x hx
              rcases List.mem_cons.mp hx with hx | hx
              · subst hx
                exact processNode_ok_zero hcat n x.1 x.2.1 x.2.2 (by rw [hr])
              · exact processAll_ok_zero hcat ns rs hrest x hx

end CatalogFailure

/-- A member of `setKeyJ m k v` is a member of `m` or carries value `v`. -/
theorem mem_setKeyJ {α : Type} :
    ∀ (m : List (JVal × α)) (k : JVal) (v : α) (p : JVal × α),
      p ∈ setKeyJ m k v → p ∈ m ∨ p.2 = v
  | [], k, v, p, hp => by
      simp only [setKeyJ, List.mem_singleton] at hp
      subst hp
      exact Or.inr rfl
  | (mk, mv) :: rest, k, v, p, hp => by
      by_cases hk : mk = k
      · simp only [setKeyJ, if_pos hk, List.mem_cons] at hp
        rcases hp with hp | hp
        · subst hp; exact Or.inr rfl
        · exact Or.inl (List.mem_cons_of_mem _ hp)
      · simp only [setKeyJ, if_neg hk, List.mem_cons] at hp
        rcases hp with hp | hp
        · subst hp; exact Or.inl (List.mem_cons_self _ _)
        · rcases mem_setKeyJ rest k v p hp with hm | hv
          · exact Or.inl (List.mem_cons_of_mem _ hm)
          · exact Or.inr hv

/-- A fold of insertions with a uniform value leaves only entries with that
value. -/
theorem foldl_setKeyJ_vals {α : Type} (f : (JVal × ℚ × JVal) → α) (v : α) :
    ∀ (rs : List (JVal × ℚ × JVal)) (acc : List (JVal × α)),
      (∀ r ∈ rs, f r = v) → (∀ p ∈ acc, p.2 = v) →
      ∀ p ∈ rs.foldl (fun a r => setKeyJ a r.2.2 (f r)) acc, p.2 = v
  | [], acc, _, hacc, p, hp => hacc p hp
  | r :: rs, acc, hall, hacc, p, hp => by
      rw [List.foldl_cons] at hp
      refine foldl_setKeyJ_vals f v rs _ (fun x hx => hall x (by simp [hx]))
        ?_ p hp
      intro x hx
      rcases mem_setKeyJ acc r.2.2 (f r) x hx with hm | hv
      · exact hacc x hm
      · rw [hv]
        exact hall r (by simp)

/-- The label of a processed (annotated) node equals the label the loop
recorded for it. -/
theorem labelOfJ_processNode (cat : Catalog) (region : String) (n u : JVal)
    (q : ℚ) (l : JVal) (h : CE3.processNode cat region n = .ok (u, q, l)) :
    labelOfJ u = l := by
  obtain ⟨node, hc, cd, hn, _, _, hl, hu⟩ := processNode_inv cat region n u q l h
  subst hu hl hn
  simp only [labelOfJ, jgetD,
    jlookup_setKey_ne _ _ _ _ (by decide : "label" ≠ "HourlyCost"),
    jlookup_setKey_ne _ _ _ _ (by decide : "label" ≠ "CostDetails"),
    jlookup_setKey_ne _ _ _ _ (by decide : "id" ≠ "HourlyCost"),
    jlookup_setKey_ne _ _ _ _ (by decide : "id" ≠ "CostDetails")]

/-- Labels of updated nodes agree with recorded labels, listwise. -/
theorem processAll_updLabels (cat : Catalog) (region : String) :
    ∀ (ns : List JVal) (results : List (JVal × ℚ × JVal)),
      CE3.processAll cat region ns = .ok results →
      ∀ r ∈ results, labelOfJ r.1 = r.2.2
  | [], results, h => by
      simp only [CE3.processAll, Except.ok.injEq] at h
      subst h
      intro r hr
      exact absurd hr (List.not_mem_nil r)
  | n :: ns, results, h => by
      simp only [CE3.processAll, bind, Except.bind, pure, Except.pure] at h
      cases hr : CE3.processNode cat region n with
      | error e => simp only [hr] at h; exact Except.noConfusion h
      | ok r =>
          simp only [hr] at h
          cases hrest : CE3.processAll cat region ns with
          | error e => simp only [hrest] at h; exact Except.noConfusion h
          | ok rs =>
              simp only [hrest, Except.ok.injEq] at h
              subst h
              intro x hx
              rcases List.mem_cons.mp hx with hx | hx
              · subst hx
                exact labelOfJ_processNode cat region n x.1 x.2.1 x.2.2
                  (by rw [hr])
              · exact processAll_updLabels cat region ns rs hrest x hx

/-- C4: when every catalog query fails (network/authentication error) or
returns no records, no exception reaches the aggregation run: every
successfully coerced node resolves to hourly cost 0, the total is 0, every
service-breakdown entry reads `$0.0000/hour`, and EVERY node's label is
recorded in the missing-price-data warnings. -/
theorem catalog_failure_zero_report (cat : Catalog) (region emsg : String)
    (hcat : ∀ sc f, cat sc f = .error emsg ∨ cat sc f = .ok [])
    (arch : JVal) (rep : CE3.Report3)
    (h : CE3.estimate_costs cat region arch = .ok rep) :
    rep.totalHourlyCost = 0
      ∧ rep.missingPriceData = rep.nodes.map labelOfJ
      ∧ ∀ p ∈ rep.serviceBreakdown, p.2 = "$0.0000/hour" := by
  obtain ⟨fs, ns, results, _, _, hp, hrep⟩ :=
    estimate_costs_inv cat region arch rep h
  have hzero : ∀ r ∈ results, r.2.1 = 0 := processAll_ok_zero hcat ns results hp
  subst hrep
  refine ⟨?_, ?_, ?_⟩
  · exact List.sum_eq_zero (by
      intro x hx
      obtain ⟨r, hr, hrx⟩ := List.mem_map.mp hx
      rw [← hrx]
      exact hzero r hr)
  · show (results.filter fun r => r.2.1 == 0).map (fun r => r.2.2)
      = (results.map (·.1)).map labelOfJ
    rw [List.filter_eq_self.mpr (fun r hr => by simp [hzero r hr]),
      List.map_map]
    refine (List.map_congr_left fun r hr => ?_).symm
    show labelOfJ r.1 = r.2.2
    exact processAll_updLabels cat region ns results hp r hr
  · intro p hp2
    refine foldl_setKeyJ_vals _ "$0.0000/hour" results [] ?_ (by simp) p hp2
    intro r hr
    rw [hzero r hr]
    with_unfolding_all rfl

/-- The two-node architecture of the C4 witness. -/
def archBoth : JVal :=
  .obj [("nodes", .arr
    [ .obj [("type", .str "AmazonEC2"), ("id", .str "a"),
        ("label", .str "compute")],
      .obj [("type", .str "AmazonS3"), ("id", .str "b")] ])]

/-- The report of estimating `archBoth` under the all-failures catalog. -/
def repBoth : CE3.Report3 :=
  match CE3.estimate_costs errCat "us-east-1" archBoth with
  | .ok r => r
  | .error _ => ⟨[], 0, 0, 0, [], []⟩

/-- Witness for C4 at a concrete architecture under total catalog
failure. -/
theorem catalog_failure_zero_report_witness :
    repBoth.totalHourlyCost = 0
      ∧ repBoth.missingPriceData = repBoth.nodes.map labelOfJ
      ∧ ∀ p ∈ repBoth.serviceBreakdown, p.2 = "$0.0000/hour" :=
  catalog_failure_zero_report errCat "us-east-1"
    "ConnectionError: network failure" (fun _ _ => Or.inl rfl) archBoth
    repBoth rfl

/-- C8: for a managed-database (`AmazonRDS`) node whose attribute coercions
succeed, the resolved hourly cost is the instance rate (doubled when the
Multi-AZ flag is truthy) plus the EBS-priced storage hourly cost `st` plus
a backup surcharge of 10% of the storage cost scaled by `retention / 7`. -/
theorem rds_cost_formula (cat : Catalog) (region : String) (node : JObj)
    (storage : ℚ) (iops retention : ℤ) (st : ℚ)
    (htype : jgetD node "type" (.str "") = .str "AmazonRDS")
    (hst : pyFloat (jgetD node "Storage" (.num 20)) = .ok storage)
    (hio : pyInt (jgetD node "IOPS" (.num 0)) = .ok iops)
    (heb : CE3.get_ebs_price cat region (jgetD node "StorageType" (.str "gp3"))
        storage (iops : ℚ) 0 = .ok st)
    (hre : pyInt (jgetD node "BackupRetention" (.num 7)) = .ok retention) :
    (CE3.nodeHourly cat region node).map Prod.fst = .ok
      ((if pyTruthy (jgetD node "MultiAZ" (.jbool false)) then
          CE3.get_rds_price cat region
            (jgetD node "DBInstanceClass" (.str "db.t3.medium"))
            (jgetD node "DBEngine" (.str "mysql")) * 2
        else
          CE3.get_rds_price cat region
            (jgetD node "DBInstanceClass" (.str "db.t3.medium"))
            (jgetD node "DBEngine" (.str "mysql")))
        + st + st * (1 / 10) * ((retention : ℚ) / 7)) := by
  unfold CE3.nodeHourly
  simp only [htype]
  rw [if_pos trivial]
  simp only [CE3.rdsBranch, bind, Except.bind, hst, hio, heb, hre, pure,
    Except.pure, Except.map]
  rw [if_neg (by decide)]

/-- The catalog snapshot of the C8 witness: an RDS instance at $0.05/hour
and EBS storage at $0.10/GB-month. -/
def rdsCat : Catalog := fun sc _ =>
  if sc = "AmazonRDS" then
    .ok [⟨[("databaseEngine", "MySQL")], [[⟨"Hrs", "per hour", 1 / 20⟩]]⟩]
  else if sc = "AmazonEC2" then
    .ok [⟨[], [[⟨"GB-Mo", "storage per GB-month", 1 / 10⟩]]⟩]
  else .ok []

/-- The C8 witness node: Multi-AZ, 100 GB storage, default 7-day
retention. -/
def rdsNode : JObj :=
  [("type", .str "AmazonRDS"), ("Storage", .num 100), ("MultiAZ", .jbool true)]

/-- Witness for C8, the spec's scenario: doubled instance rate 0.10/hr,
storage 100 × 0.10 / 730, backup 10% of it, total 42/365 ≈ 0.1151 —
indeed rounding to 4 decimals gives 0.1151. -/
theorem rds_cost_formula_witness :
    (CE3.nodeHourly rdsCat "us-east-1" rdsNode).map Prod.fst = .ok (42 / 365)
      ∧ pyRound 4 (42 / 365) = 1151 / 10000 := by
  constructor
  · rw [rds_cost_formula rdsCat "us-east-1" rdsNode 100 0 7 (1 / 73) rfl
      (by with_unfolding_all rfl) (by with_unfolding_all rfl)
      (by with_unfolding_all rfl) (by with_unfolding_all rfl)]
    with_unfolding_all rfl
  · with_unfolding_all rfl

/-- Region-code resolution against the static table (`none` when the code
is absent or the value is not even a string). -/
def regionLookup : JVal → Option String
  | .str s => CE.lookupStr CE.REGION_MAP s
  | _ => none

/-- The unmapped-region sentinel always trips the `"not mapped"` substring
check of `estimate_ec2_cost`. -/
theorem not_mapped_infix (region : JVal) (hreg : regionLookup region = none) :
    strIn "not mapped" (CE.get_location_from_region region) = true := by
  have hpre : ∃ a b, ("Region not mapped: ").toList
      = a ++ ("not mapped".toList ++ b) :=
    ⟨"Region ".toList, ": ".toList, by decide⟩
  cases region with
  | str s =>
      simp only [regionLookup] at hreg
      simp only [CE.get_location_from_region, hreg]
      exact strIn_append_right s hpre
  | null => exact strIn_append_right _ hpre
  | jbool b => exact strIn_append_right _ hpre
  | num q => exact strIn_append_right _ hpre
  | arr xs => exact strIn_append_right _ hpre
  | obj o => exact strIn_append_right _ hpre

/-- C7 (amended): an EC2 node with a region outside the static table is
skipped for cost purposes — its resolver returns 0 without raising — and
the one-node report is still produced, with the node absent from the
breakdown; no `{node_id, reason}` warning exists anywhere in the returned
report (the skip is only printed to the console). -/
theorem unmapped_region_zero (cat : Catalog) (node : JObj)
    (hinst : pyTruthy (jgetD node "InstanceType" .null) = true)
    (hreg : regionLookup (jgetD node "region" (.str CE.DEFAULT_AWS_REGION))
        = none)
    (htype : jgetD node "type" .null = .str "AmazonEC2") :
    CE.estimate_ec2_cost cat node = .ok 0
      ∧ CE.estimate_cost_from_json cat (.obj [("nodes", .arr [.obj node])])
          = .ok (0, []) := by
  have h1 : CE.estimate_ec2_cost cat node = .ok 0 := by
    simp only [CE.estimate_ec2_cost, bind, Except.bind, pure, Except.pure,
      hinst, Bool.not_true, Bool.false_eq_true, if_false,
      not_mapped_infix _ hreg, if_true]
  refine ⟨h1, ?_⟩
  show CE.goNodes cat [.obj node] 0 (0, []) = .ok (0, [])
  have hT : (!pyTruthy (JVal.str "AmazonEC2")) = false := by decide
  simp only [CE.goNodes, htype, hT, Bool.false_eq_true, if_false,
    CE.handlerFor, h1]
  rw [if_neg (lt_irrefl (0 : ℚ))]

/-- The C7 node: a valid instance type in the fictional region
`mars-west-1`. -/
def marsNode : JObj :=
  [("type", .str "AmazonEC2"), ("id", .str "web"),
   ("InstanceType", .str "t3.micro"), ("region", .str "mars-west-1")]

/-- Witness for C7's amended theorem at the spec's `mars-west-1`
scenario. -/
theorem unmapped_region_zero_witness :
    CE.estimate_ec2_cost emptyCat marsNode = .ok 0
      ∧ CE.estimate_cost_from_json emptyCat
          (.obj [("nodes", .arr [.obj marsNode])]) = .ok (0, []) :=
  unmapped_region_zero emptyCat marsNode rfl rfl rfl

/-- Counterexample to C7 as stated: `mars-west-1` is outside the region
table and the node costs 0 and the run succeeds, but the ENTIRE returned
report is the pair `(0, {})` — it contains no `{node_id, reason}` warning
(and no warnings collection at all), so no warning is recorded for the
node. -/
theorem unmapped_region_no_warning :
    CE.lookupStr CE.REGION_MAP "mars-west-1" = none
      ∧ CE.estimate_cost_from_json emptyCat
          (.obj [("nodes", .arr [.obj marsNode])]) = .ok (0, []) :=
  ⟨rfl, by with_unfolding_all rfl⟩

theorem scanTermsFirstDim_eq (ts : List (List PriceDim)) :
    CE.scanTermsFirstDim ts = ts.flatten.head?.map PriceDim.usd := by
  induction ts with
  | nil => rfl
  | cons t ts ih =>
      cases t with
      | nil => simpa [CE.scanTermsFirstDim] using ih
      | cons d ds => simp [CE.scanTermsFirstDim]

theorem scanFirstDim_eq (rs : List PriceRecord) :
    CE.scanFirstDim rs
      = ((rs.map PriceRecord.terms).flatten.flatten.head?).map PriceDim.usd := by
  induction rs with
  | nil => rfl
  | cons r rs ih =>
      simp only [CE.scanFirstDim, scanTermsFirstDim_eq, List.map_cons,
        List.flatten_cons, List.flatten_append, List.head?_append]
      cases hf : r.terms.flatten.head? with
      | none => simp [ih, Option.or]
      | some d => simp [Option.or]

/-- C10 (amended): `get_product_price` returns the USD price of the FIRST
OnDemand price dimension found in record order — records without any
dimension (no OnDemand terms, or only empty terms) are skipped, so the
price need not come from the first returned record — regardless of the
dimension's unit or description, and `0.0` when the query errors, matches
nothing, or no dimension exists at all. -/
theorem get_product_price_first_dimension (cat : Catalog) (sc : String)
    (fs : List Filter) :
    CE.get_product_price cat sc fs
      = match cat sc fs with
        | .error _ => 0
        | .ok rs =>
            (((rs.map PriceRecord.terms).flatten.flatten.head?).map
              PriceDim.usd).getD 0 := by
  unfold CE.get_product_price
  cases cat sc fs with
  | error e => rfl
  | ok rs =>
      cases rs with
      | nil => rfl
      | cons r rest =>
          show (CE.scanFirstDim (r :: rest)).getD 0 = _
          rw [scanFirstDim_eq]

/-- A first record carrying no OnDemand price dimension at all. -/
def dimlessRec : PriceRecord := ⟨[("note", "no OnDemand terms")], []⟩

/-- A second record with one storage-unit dimension priced at 5 USD. -/
def storageRec : PriceRecord := ⟨[], [[⟨"GB-Mo", "storage", 5⟩]]⟩

/-- A catalog whose every query returns the two records above, in that
order. -/
def twoRecCat : Catalog := fun _ _ => .ok [dimlessRec, storageRec]

/-- Counterexample to C10 as stated: the first returned record has NO
OnDemand price dimension (`terms = []`), yet the helper returns 5 — the
price of the second record's dimension (whose unit is `GB-Mo`, not an
hourly unit) — so the result is not "the first price dimension of the
first OnDemand term of the first returned price record". -/
theorem price_from_second_record :
    CE.get_product_price twoRecCat "AmazonEC2" [] = 5
      ∧ dimlessRec.terms = [] := ⟨rfl, rfl⟩

/-- Breakdown entries of `cost_2.py` always carry the 6-decimal rounding of
that node's unrounded price. -/
theorem goC2_hourly (cat : Catalog) :
    ∀ (ns : List JVal) (rs : List (ℚ × Cost2.Entry2)),
      Cost2.goC2 cat ns = .ok rs →
      ∀ pe ∈ rs, pe.2.hourly_price_usd = pyRound 6 pe.1
  | [], rs, h => by
      simp only [Cost2.goC2, Except.ok.injEq] at h
      subst h
      intro pe hpe
      exact absurd hpe (List.not_mem_nil pe)
  | n :: ns, rs, h => by
      simp only [Cost2.goC2, bind, Except.bind, pure, Except.pure] at h
      cases hr : Cost2.nodePrice2 cat n with
      | error e => simp only [hr] at h; exact Except.noConfusion h
      | ok r =>
          simp only [hr] at h
          cases hrest : Cost2.goC2 cat ns with
          | error e => simp only [hrest] at h; exact Except.noConfusion h
          | ok rest =>
              simp only [hrest] at h
              cases r with
              | none =>
                  simp only [Except.ok.injEq] at h
                  subst h
                  exact goC2_hourly cat ns rest hrest
              | some v =>
                  obtain ⟨p, svc, descr, nid⟩ := v
                  simp only [Except.ok.injEq] at h
                  subst h
                  intro pe hpe
                  rcases List.mem_cons.mp hpe with hpe | hpe
                  · subst hpe; rfl
                  · exact goC2_hourly cat ns rest hrest pe hpe

/-- Inversion of a successful `estimate_cost_from_architecture` run. -/
theorem estimate_arch_inv (cat : Catalog) (arch : JVal) (rep : Cost2.Report2)
    (h : Cost2.estimate_cost_from_architecture cat arch = .ok rep) :
    ∃ ns rs, Cost2.goC2 cat ns = .ok rs
      ∧ rep = ⟨pyRound 6 ((rs.map Prod.fst).sum),
          pyRound 2 ((rs.map Prod.fst).sum * 730), rs.map Prod.snd⟩ := by
  simp only [Cost2.estimate_cost_from_architecture, bind, Except.bind, pure,
    Except.pure] at h
  cases arch with
  | obj fields =>
      cases hn : jlookup fields "nodes" with
      | none => simp only [hn] at h; exact Except.noConfusion h
      | some v =>
          simp only [hn] at h
          cases v with
          | arr ns =>
              cases hg : Cost2.goC2 cat ns with
              | error e => simp only [hg] at h; exact Except.noConfusion h
              | ok rs =>
                  simp only [hg, Except.ok.injEq] at h
                  exact ⟨ns, rs, hg, h.symm⟩
          | null => exact Except.noConfusion h
          | jbool b => exact Except.noConfusion h
          | num q => exact Except.noConfusion h
          | str s => exact Except.noConfusion h
          | obj o => exact Except.noConfusion h
  | null => exact Except.noConfusion h
  | jbool b => exact Except.noConfusion h
  | num q => exact Except.noConfusion h
  | str s => exact Except.noConfusion h
  | arr xs => exact Except.noConfusion h

/-- C1 (amended): the reported total is the 6-decimal rounding of the exact
sum of the UNROUNDED per-node prices, so its distance from the sum of the
individually rounded breakdown entries is bounded by one half-unit in the
sixth decimal per entry plus one for the total — `(n + 1) · 5·10⁻⁷` for
`n` entries — which is NOT within the single declared precision of `10⁻⁶`
(see the counterexample). -/
theorem total_rounding_drift (cat : Catalog) (arch : JVal)
    (rep : Cost2.Report2)
    (h : Cost2.estimate_cost_from_architecture cat arch = .ok rep) :
    |rep.total_hourly_cost_usd
        - (rep.service_breakdown.map Cost2.Entry2.hourly_price_usd).sum|
      ≤ (rep.service_breakdown.length + 1) * (1 / 2 / 10 ^ 6) := by
  obtain ⟨ns, rs, hg, hrep⟩ := estimate_arch_inv cat arch rep h
  subst hrep
  have hmap : (rs.map Prod.snd).map Cost2.Entry2.hourly_price_usd
      = (rs.map Prod.fst).map (pyRound 6) := by
    rw [List.map_map, List.map_map]
    exact List.map_congr_left fun pe hpe => goC2_hourly cat ns rs hg pe hpe
  simp only [hmap, List.length_map]
  set P := rs.map Prod.fst with hP
  have h1 : |pyRound 6 P.sum - P.sum| ≤ 1 / 2 / 10 ^ 6 := abs_pyRound_sub 6 _
  have h2 : |(P.map (pyRound 6)).sum - P.sum| ≤ P.length * (1 / 2 / 10 ^ 6) :=
    abs_sum_pyRound_sub 6 P
  have h3 : |pyRound 6 P.sum - (P.map (pyRound 6)).sum|
      ≤ |pyRound 6 P.sum - P.sum| + |(P.map (pyRound 6)).sum - P.sum| := by
    have : pyRound 6 P.sum - (P.map (pyRound 6)).sum
        = (pyRound 6 P.sum - P.sum) - ((P.map (pyRound 6)).sum - P.sum) := by
      ring
    rw [this]
    exact abs_sub _ _
  have hlen : (rs.length : ℚ) = P.length := by simp [hP]
  calc |pyRound 6 P.sum - (P.map (pyRound 6)).sum|
      ≤ |pyRound 6 P.sum - P.sum| + |(P.map (pyRound 6)).sum - P.sum| := h3
    _ ≤ 1 / 2 / 10 ^ 6 + P.length * (1 / 2 / 10 ^ 6) := add_le_add h1 h2
    _ = ((rs.length : ℚ) + 1) * (1 / 2 / 10 ^ 6) := by rw [hlen]; ring

/-- The sub-microdollar EC2 price record of the C1 counterexample. -/
def driftRec : PriceRecord := ⟨[], [[⟨"Hrs", "on demand", 1 / 2500000⟩]]⟩

/-- A catalog pricing EC2 at $0.0000004/hour. -/
def driftCat : Catalog := fun sc _ =>
  if sc = "AmazonEC2" then .ok [driftRec] else .ok []

/-- Ten identical EC2 nodes. -/
def driftArch : JVal :=
  .obj [("nodes", .arr (List.replicate 10
    (.obj [("type", .str "AmazonEC2"), ("id", .str "n")])))]

/-- The report of the C1 counterexample run. -/
def driftRep : Cost2.Report2 :=
  match Cost2.estimate_cost_from_architecture driftCat driftArch with
  | .ok r => r
  | .error _ => ⟨0, 0, []⟩

/-- Counterexample to C1 as stated: each breakdown entry rounds
$0.0000004/hour to 0, so the breakdown sums to 0, while the reported total
is the rounding of the exact sum $0.000004 — a drift of 4·10⁻⁶, beyond the
declared 6-decimal precision of 10⁻⁶. -/
theorem total_exceeds_declared_precision :
    Cost2.estimate_cost_from_architecture driftCat driftArch = .ok driftRep
      ∧ driftRep.total_hourly_cost_usd = 1 / 250000
      ∧ (driftRep.service_breakdown.map Cost2.Entry2.hourly_price_usd).sum = 0
      ∧ ¬ (|(1 : ℚ) / 250000 - 0| ≤ 1 / 1000000) :=
  ⟨rfl, by with_unfolding_all rfl, by with_unfolding_all rfl,
    by rw [sub_zero, abs_of_pos (by norm_num : (0 : ℚ) < 1 / 250000)]; norm_num⟩

/-- A catalog pricing EC2 at $0.10/hour, for the C1 witness. -/
def dimeCat : Catalog := fun sc _ =>
  if sc = "AmazonEC2" then .ok [⟨[], [[⟨"Hrs", "on demand", 1 / 10⟩]]⟩]
  else .ok []

/-- A one-node EC2 architecture. -/
def oneNodeArch : JVal :=
  .obj [("nodes", .arr [.obj [("type", .str "AmazonEC2"), ("id", .str "n")]])]

/-- The report of the C1 witness run. -/
def dimeRep : Cost2.Report2 :=
  match Cost2.estimate_cost_from_architecture dimeCat oneNodeArch with
  | .ok r => r
  | .error _ => ⟨0, 0, []⟩

/-- Witness for C1's amended drift bound at a concrete run. -/
theorem total_rounding_drift_witness :
    |dimeRep.total_hourly_cost_usd
        - (dimeRep.service_breakdown.map Cost2.Entry2.hourly_price_usd).sum|
      ≤ (dimeRep.service_breakdown.length + 1) * (1 / 2 / 10 ^ 6) :=
  total_rounding_drift dimeCat oneNodeArch dimeRep rfl

/-- C3 (amended): `parse_storage_size` maps `"2TB"` to 2048 GB, `"512MB"`
to 0.5 GB and the bare `"100"` to 100 GB, and returns `None` — it takes no
caller-supplied default — for an unparseable string, without raising; the
caller-default fallback belongs to `safe_float`, which does return the
supplied default for `"bogus"` and scales `tb`, but leaves an `MB` suffix
unscaled (512, not 0.5). -/
theorem size_parsing_values :
    CE.parse_storage_size (.str "2TB") = some 2048
      ∧ CE.parse_storage_size (.str "512MB") = some (1 / 2)
      ∧ CE.parse_storage_size (.str "100") = some 100
      ∧ CE.parse_storage_size (.str "bogus") = none
      ∧ (∀ d : ℚ, CE2.safe_float (.str "bogus") d = d)
      ∧ CE2.safe_float (.str "2tb") 0 = 2048
      ∧ CE2.safe_float (.str "512MB") 0 = 512 :=
  ⟨by with_unfolding_all rfl, by with_unfolding_all rfl,
    by with_unfolding_all rfl, by with_unfolding_all rfl,
    fun d => by with_unfolding_all rfl, by with_unfolding_all rfl,
    by with_unfolding_all rfl⟩

/-- Counterexample to C3 as stated: at the unparseable input `"bogus"` the
size parser returns `None`, not a caller-supplied default (it has no such
parameter); and the one parser that does take a caller default,
`safe_float`, maps `"512MB"` to 512 rather than the claimed 0.5 GB. -/
theorem size_parser_no_default :
    CE.parse_storage_size (.str "bogus") = none
      ∧ CE2.safe_float (.str "512MB") 0 = 512
      ∧ (512 : ℚ) ≠ 1 / 2 :=
  ⟨by with_unfolding_all rfl, by with_unfolding_all rfl, by norm_num⟩

end CAA
